import Mathlib

/-! Verification of the CUGL networked-physics core.

A shallow embedding of the networked-physics subsystem of the repository
(`CUNetPhysicsController.cpp`, `CUNetEventController.cpp`, `CULWDeserializer.h`,
`CUPhysSyncEvent.h`, `CUGameStateEvent.h`) together with proofs about it.

Modelling conventions:
* C++ `float` scalar state is modelled exactly by rationals (`ℚ`); the
  floating-point rounding of the C++ build is outside the model.
* Machine integers are modelled by `ℕ`/`ℤ`, with `% 2 ^ w` written out where the
  C++ arithmetic wraps.
* `std::map`/`std::unordered_map` is modelled by an association list.  Its
  `insert` member does NOT overwrite an existing key (STL semantics), which is
  modelled faithfully by `ainsert` below; `operator[] =` is `aupdate`.
* `std::shared_ptr<Obstacle>` identity is modelled by a numeric handle into an
  association-list store of obstacle states.
-/

/-- Association-list lookup: the value at key `k`, first match wins
(`std::map::at` / `count`). -/

def alookup {α : Type} (k : ℕ) : List (ℕ × α) → Option α
  | [] => none
  | (k', v) :: rest => if k' = k then some v else alookup k rest

/-- `std::map::insert`: inserts only when the key is absent; an existing entry
is left untouched. -/

def ainsert {α : Type} (k : ℕ) (v : α) (m : List (ℕ × α)) : List (ℕ × α) :=
  match alookup k m with
  | some _ => m
  | none => (k, v) :: m

/-- `std::map::operator[] = v`: overwrite the value stored at key `k` (no-op
when the key is absent; every caller in the source first checks presence). -/

def aupdate {α : Type} (k : ℕ) (v : α) : List (ℕ × α) → List (ℕ × α)
  | [] => []
  | (k', v') :: rest =>
    if k' = k then (k, v) :: aupdate k v rest else (k', v') :: aupdate k v rest

/-- `std::map::erase`: remove the entry at key `k`. -/

def aerase {α : Type} (k : ℕ) : List (ℕ × α) → List (ℕ × α)
  | [] => []
  | (k', v') :: rest => if k' = k then aerase k rest else (k', v') :: aerase k rest

/-! ## Byte codec: `LWDeserializer` (`CULWDeserializer.h`)

Bytes are natural numbers `< 256`.  Each read models the corresponding C++
member.  The C++ guard is `if (_pos >= _data.size()) return 0;` — it checks
only whether the read POSITION is inside the buffer, not whether the full
scalar fits.  A multi-byte read issued with the position strictly inside the
buffer dereferences `sizeof(T)` bytes starting at `_pos` even when fewer bytes
remain; that out-of-bounds memory access is modelled by the result `none`.
Multi-byte scalars are converted from network byte order (`marshall`),
modelled as big-endian recombination of the byte list. -/

structure LWDeserializer where
  /-- Currently loaded data (`_data`), one `ℕ < 256` per `std::byte`. -/
  data : List ℕ
  /-- Position in the data of next byte to read (`_pos`). -/
  pos : ℕ
  deriving DecidableEq, Repr

/-- Big-endian (network-order) recombination of a byte list; the value a
`marshall`ed multi-byte read returns. -/

def fromNetBytes (bs : List ℕ) : ℕ :=
  bs.foldl (fun acc b => acc * 256 + b) 0

/-- The shared access pattern of every read member: the guard
`_pos >= _data.size()` returns the zero value (empty byte list) without moving
`_pos`; otherwise the read dereferences `w` bytes at `_pos` and advances.
`none` models the dereference running past the end of the buffer. -/

def LWDeserializer.readBytes (w : ℕ) (d : LWDeserializer) :
    Option (List ℕ × LWDeserializer) :=
  if d.data.length ≤ d.pos then some ([], d)
  else if d.pos + w ≤ d.data.length then
    some ((d.data.drop d.pos).take w, { d with pos := d.pos + w })
  else none

/-- `readBool`: one byte; the result is `value == 1`. -/

def LWDeserializer.readBool (d : LWDeserializer) : Option (Bool × LWDeserializer) :=
  (d.readBytes 1).map (fun r => (fromNetBytes r.1 = 1, r.2))

/-- `readByte`: one raw byte. -/

def LWDeserializer.readByte (d : LWDeserializer) : Option (ℕ × LWDeserializer) :=
  (d.readBytes 1).map (fun r => (fromNetBytes r.1, r.2))

/-- `readFloat`: four bytes reinterpreted as `float`.  The model returns the
32-bit pattern; `0.0f` has pattern `0`, which is all the claims need. -/

def LWDeserializer.readFloat (d : LWDeserializer) : Option (ℕ × LWDeserializer) :=
  (d.readBytes 4).map (fun r => (fromNetBytes r.1, r.2))

/-- `readSint32`: four bytes, two's-complement signed interpretation. -/

def LWDeserializer.readSint32 (d : LWDeserializer) : Option (ℤ × LWDeserializer) :=
  (d.readBytes 4).map (fun r =>
    (if fromNetBytes r.1 < 2 ^ 31 then (fromNetBytes r.1 : ℤ)
     else (fromNetBytes r.1 : ℤ) - 2 ^ 32, r.2))

/-- `readUint16`: two bytes. -/

def LWDeserializer.readUint16 (d : LWDeserializer) : Option (ℕ × LWDeserializer) :=
  (d.readBytes 2).map (fun r => (fromNetBytes r.1, r.2))

/-- `readUint32`: four bytes. -/

def LWDeserializer.readUint32 (d : LWDeserializer) : Option (ℕ × LWDeserializer) :=
  (d.readBytes 4).map (fun r => (fromNetBytes r.1, r.2))

/-- `readUint64`: eight bytes. -/

def LWDeserializer.readUint64 (d : LWDeserializer) : Option (ℕ × LWDeserializer) :=
  (d.readBytes 8).map (fun r => (fromNetBytes r.1, r.2))

/-- `receive`: load a byte vector and reset the position. -/

def LWDeserializer.receive (msg : List ℕ) : LWDeserializer :=
  { data := msg, pos := 0 }

/-! ## `GameStateEvent` (`CUGameStateEvent.h`)

Type codes: 100 `UID_ASSIGN`, 101 `CLIENT_RDY`, 102 `GAME_START`,
103 `GAME_RESET`, 104 `GAME_PAUSE`, 105 `GAME_RESUME`. -/

structure GameStateEvent where
  /-- Internal type of the game state message (`_type`). -/
  type : ℕ
  /-- `_shortUID : Uint32`. -/
  shortUID : ℕ
  deriving DecidableEq, Repr

/-- `allocUIDAssign`: a fresh event of type `UID_ASSIGN` carrying the given
32-bit short UID. -/

def GameStateEvent.allocUIDAssign (uid : ℕ) : GameStateEvent :=
  { type := 100, shortUID := uid }

/-- `getShortUID` has return type `Uint8`: the stored `Uint32` is truncated to
its low 8 bits. -/

def GameStateEvent.getShortUID (e : GameStateEvent) : ℕ :=
  e.shortUID % 256

/-- `serialize`: one byte for the type; for `UID_ASSIGN` one further byte
`std::byte(_shortUID)`, the `Uint32` truncated mod 256.  An unknown type
asserts and produces no bytes. -/

def GameStateEvent.serialize (e : GameStateEvent) : List ℕ :=
  if e.type = 102 then [102]
  else if e.type = 103 then [103]
  else if e.type = 104 then [104]
  else if e.type = 105 then [105]
  else if e.type = 101 then [101]
  else if e.type = 100 then [100, e.shortUID % 256]
  else []

/-- `deserialize`: dispatch on `data[0]`; `UID_ASSIGN` additionally reads
`_shortUID = (Uint8)data[1]`.  An unknown flag asserts and leaves the event
unchanged. -/

def GameStateEvent.deserialize (e : GameStateEvent) (data : List ℕ) : GameStateEvent :=
  let flag := data.headD 0
  if flag = 102 then { e with type := 102 }
  else if flag = 103 then { e with type := 103 }
  else if flag = 104 then { e with type := 104 }
  else if flag = 105 then { e with type := 105 }
  else if flag = 101 then { e with type := 101 }
  else if flag = 100 then { type := 100, shortUID := (data.getD 1 0) % 256 }
  else e

/-! ## Physics data model (`CUNetPhysicsController.h`, `CUPhysObjEvent.h`,
`CUPhysSyncEvent.h`)

Obstacle handles (`ℕ`) model `std::shared_ptr<physics2::Obstacle>` identity;
the obstacle states live in an association-list store. -/

structure Vec2 where
  x : ℚ
  y : ℚ
  deriving DecidableEq, Repr

def Vec2.add (a b : Vec2) : Vec2 := ⟨a.x + b.x, a.y + b.y⟩

def Vec2.sub (a b : Vec2) : Vec2 := ⟨a.x - b.x, a.y - b.y⟩

def Vec2.divBy (a : Vec2) (c : ℚ) : Vec2 := ⟨a.x / c, a.y / c⟩

/-- The squared Euclidean distance; `(p − q).length()` is `√(distSq p q)`. -/

def distSq (p q : Vec2) : ℚ := (p.x - q.x) ^ 2 + (p.y - q.y) ^ 2

/-- One rigid body of the simulator, with the properties and per-frame dirty
bits replicated by the library (`physics2::Obstacle` interface, spec §3). -/

structure Obstacle where
  position : Vec2
  linearVelocity : Vec2
  angle : ℚ
  angularVelocity : ℚ
  bodyType : ℕ
  isEnabled : Bool
  isAwake : Bool
  isSleepingAllowed : Bool
  isFixedRotation : Bool
  isBullet : Bool
  isSensor : Bool
  density : ℚ
  friction : ℚ
  restitution : ℚ
  linearDamping : ℚ
  angularDamping : ℚ
  gravityScale : ℚ
  mass : ℚ
  inertia : ℚ
  centroid : Vec2
  shared : Bool
  posDirty : Bool
  angleDirty : Bool
  velDirty : Bool
  angVelDirty : Bool
  typeDirty : Bool
  boolConstDirty : Bool
  floatConstDirty : Bool
  deriving DecidableEq, Repr

/-- `targetParam` (`CUNetPhysicsController.h`): target parameters for
interpolation.  `curStep`/`numSteps` are C `int`s, modelled by `ℤ`. -/

structure TargetParam where
  curStep : ℤ
  numSteps : ℤ
  P0 : Vec2
  P1 : Vec2
  P2 : Vec2
  P3 : Vec2
  targetVel : Vec2
  targetAngle : ℚ
  targetAngV : ℚ
  I : Vec2
  numI : ℕ
  deriving DecidableEq, Repr

/-- The payload variants of `PhysObjEvent` (`CUPhysObjEvent.h`). -/

inductive PhysObjAction where
  | creation (factoryId : ℕ) (packedParam : List ℕ)
  | deletion
  | bodyType (t : ℕ)
  | position (p : Vec2)
  | velocity (v : Vec2)
  | angle (a : ℚ)
  | angularVel (w : ℚ)
  | boolConsts (isEnabled isAwake isSleepingAllowed isFixedRotation isBullet isSensor : Bool)
  | floatConsts (density friction restitution linearDamping angularDamping gravityScale mass inertia : ℚ) (centroid : Vec2)
  | ownerAcquire (duration : ℕ)
  | ownerRelease
  deriving DecidableEq, Repr

/-- A received `PhysObjEvent`; `sourceId` is the sender metadata stamped by the
envelope layer (empty for locally produced events). -/

structure PhysObjEvent where
  sourceId : String
  objId : ℕ
  action : PhysObjAction
  deriving DecidableEq, Repr

/-- `ObjParam` (`CUPhysSyncEvent.h`): one object snapshot. -/

structure ObjParam where
  objId : ℕ
  x : ℚ
  y : ℚ
  vx : ℚ
  vy : ℚ
  angle : ℚ
  vAngular : ℚ
  deriving DecidableEq, Repr

/-- A received `PhysSyncEvent`: sender metadata plus the snapshot list. -/

structure PhysSyncEvent where
  sourceId : String
  syncList : List ObjParam
  deriving DecidableEq, Repr

/-- An entry of the controller's `_outEvents` (locally allocated events). -/

inductive OutEvent where
  | physObj (objId : ℕ) (action : PhysObjAction)
  | physSync (syncList : List ObjParam)
  deriving DecidableEq, Repr

/-- The parts of `physics2::ObstacleWorld` the controller uses: the obstacle
vector, the id ↔ handle maps and the ownership ledger (values are
remaining-tick counts, `0` = permanent). -/

structure ObstacleWorld where
  obstacles : List ℕ
  store : List (ℕ × Obstacle)
  idToObj : List (ℕ × ℕ)
  objToId : List (ℕ × ℕ)
  owned : List (ℕ × ℕ)
  nextHandle : ℕ

/-- Modelled from the spec: `ObstacleWorld::addObstacle(obstacle, id)` is not
under `src/`.  Spec §4.5, receiving a remote creation: construct the body,
insert it into both id maps under the identifier from the event, mark it
shared, and add it to the simulator.  The fresh handle models the new
`shared_ptr`. -/

def ObstacleWorld.addObstacleWithId (w : ObstacleWorld) (obj : Obstacle) (id : ℕ) :
    ObstacleWorld :=
  { w with obstacles := w.obstacles ++ [w.nextHandle],
           store := (w.nextHandle, { obj with shared := true }) :: w.store,
           idToObj := ainsert id w.nextHandle w.idToObj,
           objToId := ainsert w.nextHandle id w.objToId,
           nextHandle := w.nextHandle + 1 }

/-- Modelled from the spec: `ObstacleWorld::removeObstacle` is not under
`src/`.  Spec §4.5: removal erases both map entries and destroys the simulator
body. -/

def ObstacleWorld.removeObstacle (w : ObstacleWorld) (obs : ℕ) : ObstacleWorld :=
  let w1 := { w with obstacles := w.obstacles.filter (fun o => o ≠ obs),
                     store := aerase obs w.store }
  match alookup obs w.objToId with
  | some id => { w1 with idToObj := aerase id w1.idToObj, objToId := aerase obs w1.objToId }
  | none => w1

/-- The state of a `NetPhysicsController`.  A factory
(`_obstacleFacts` entry) builds an obstacle from packed parameter bytes. -/

structure NetPhysicsState where
  isHost : Bool
  world : ObstacleWorld
  obstacleFacts : List (List ℕ → Obstacle)
  cache : List (ℕ × TargetParam)
  deleteCache : List ℕ
  outEvents : List OutEvent
  itprCount : ℕ
  ovrdCount : ℕ
  stepSum : ℤ

/-! ## `NetPhysicsController` operations (`CUNetPhysicsController.cpp`)

The compile-time interpolation selector of the source is `ITPR_METHOD 0`
(linear convergence); the other modes are preprocessed out.  The scene-graph
linkage (`_linkSceneToObsFunc`, `_sharedObsToNodeMap`) is outside the spec's
scope and not modelled.  Obstacle setters called between `setShared(false)`
and `setShared(true)` accumulate no dirty bits (spec §4.6, invariant I2), so
they are modelled as plain field updates with the final `shared := true`
restore written out. -/

/-- The property switch of `processPhysObjEvent` (the NON-SHARED block,
source lines 81-127).  `OBJ_FLOAT_CONSTS` never applies the event's
`angularDamping` (source lines 105-113).  Owner transfer and
creation/deletion touch no obstacle fields. -/

def applyObjAction (obj : Obstacle) : PhysObjAction → Obstacle
  | .bodyType t => { obj with bodyType := t }
  | .position p => { obj with position := p }
  | .velocity v => { obj with linearVelocity := v }
  | .angle a => { obj with angle := a }
  | .angularVel w => { obj with angularVelocity := w }
  | .boolConsts e aw sa fr bu se =>
    { obj with isEnabled := e, isAwake := aw, isSleepingAllowed := sa,
               isFixedRotation := fr, isBullet := bu, isSensor := se }
  | .floatConsts de fr re ld _ad gs ma ine ce =>
    { obj with density := de, friction := fr, restitution := re,
               linearDamping := ld, gravityScale := gs, mass := ma,
               inertia := ine, centroid := ce }
  | _ => obj

/-- `NetPhysicsController::processPhysObjEvent` (source lines 44-130). -/

def processPhysObjEvent (s : NetPhysicsState) (event : PhysObjEvent) :
    NetPhysicsState :=
  if event.sourceId = "" then s
  else
    match event.action with
    | .creation factId params =>
      if h : factId < s.obstacleFacts.length then
        let obj := (s.obstacleFacts.get ⟨factId, h⟩) params
        let hnd := s.world.nextHandle
        let w1 := s.world.addObstacleWithId obj event.objId
        let w2 := if s.isHost then { w1 with owned := ainsert hnd 0 w1.owned } else w1
        { s with world := w2 }
      else s
    | act =>
      match alookup event.objId s.world.idToObj with
      | none => s
      | some obs =>
        if act = .deletion then
          { s with cache := aerase obs s.cache, world := s.world.removeObstacle obs }
        else
          match alookup obs s.world.store with
          | none => s
          | some obj =>
            let owned2 : List (ℕ × ℕ) :=
              match act with
              | .ownerAcquire _ => aerase obs s.world.owned
              | .ownerRelease =>
                if s.isHost then ainsert obs 0 s.world.owned else s.world.owned
              | _ => s.world.owned
            { s with world :=
                { s.world with
                    store := aupdate obs { applyObjAction obj act with shared := true }
                               s.world.store,
                    owned := owned2 } }

/-- `NetPhysicsController::acquireObs` (source lines 159-167).  Both map
writes are `std::map::insert`, which leaves an existing entry untouched. -/

def acquireObs (s : NetPhysicsState) (obs : ℕ) (duration : ℕ) : NetPhysicsState :=
  let owned1 := if s.isHost then ainsert obs 0 s.world.owned else s.world.owned
  let owned2 := ainsert obs duration owned1
  match alookup obs s.world.objToId with
  | some id =>
    { s with world := { s.world with owned := owned2 },
             outEvents := s.outEvents ++ [.physObj id (.ownerAcquire duration)] }
  | none => { s with world := { s.world with owned := owned2 } }

/-- `NetPhysicsController::releaseObs` (source lines 169-177).  On the host
this is a no-op.  A missing `objToId` entry would make `at` throw after the
erase; that branch keeps only the erase. -/

def releaseObs (s : NetPhysicsState) (obs : ℕ) : NetPhysicsState :=
  if s.isHost then s
  else
    let owned1 := aerase obs s.world.owned
    match alookup obs s.world.objToId with
    | some id =>
      { s with world := { s.world with owned := owned1 },
               outEvents := s.outEvents ++ [.physObj id .ownerRelease] }
    | none => { s with world := { s.world with owned := owned1 } }

/-- `NetPhysicsController::addSyncObject` (source lines 249-268).  On a cache
hit the body first adopts the old target's velocities (inside a
`setShared(false)`/`setShared(true)` window, so the flag ends up `true`) and
the new target inherits the old integral accumulator; then the entry is
replaced (`erase` + `insert`). -/

def addSyncObject (s : NetPhysicsState) (obs : ℕ) (param : TargetParam) :
    NetPhysicsState :=
  match alookup obs s.cache with
  | some oldParam =>
    let store1 :=
      match alookup obs s.world.store with
      | some obj =>
        aupdate obs
          { obj with linearVelocity := oldParam.targetVel,
                     angularVelocity := oldParam.targetAngV, shared := true }
          s.world.store
      | none => s.world.store
    let param2 := { param with I := oldParam.I, numI := oldParam.numI }
    { s with world := { s.world with store := store1 },
             cache := ainsert obs param2 (aerase obs s.cache),
             stepSum := s.stepSum + param2.numSteps,
             itprCount := s.itprCount + 1 }
  | none =>
    { s with cache := ainsert obs param (aerase obs s.cache),
             stepSum := s.stepSum + param.numSteps,
             itprCount := s.itprCount + 1 }

/-- `(int)(diff * 30)` of source line 226, where
`diff = (getPosition() − Vec2(x, y)).length()`.  The value is nonnegative, so
the C cast truncates to `⌊30·√(distSq)⌋ = ⌊√(900·distSq)⌋`, which equals
`Nat.sqrt ⌊900·distSq⌋` (theorem `floorThirtyDist_eq` below). -/

def floorThirtyDist (p q : Vec2) : ℕ :=
  Nat.sqrt (Int.toNat ⌊(900 : ℚ) * distSq p q⌋)

/-- The per-snapshot body of the `processPhysSyncEvent` loop (source lines
210-240): skip unknown ids, compute the step count
`SDL_max(1, SDL_min(30, SDL_max((int)(diff*30), (int)angDiff)))`, build the
target and hand it to `addSyncObject`. -/

def processSyncEntry (s : NetPhysicsState) (param : ObjParam) : NetPhysicsState :=
  match alookup param.objId s.world.idToObj with
  | none => s
  | some obs =>
    match alookup obs s.world.store with
    | none => s
    | some obj =>
      let angDiff : ℚ := 10 * |obj.angle - param.angle|
      let steps : ℤ :=
        max 1 (min 30 (max (floorThirtyDist obj.position ⟨param.x, param.y⟩ : ℤ) ⌊angDiff⌋))
      let targetVel : Vec2 := ⟨param.vx, param.vy⟩
      let target : TargetParam :=
        { curStep := 0, numSteps := steps,
          P0 := obj.position,
          P1 := obj.position.add (obj.linearVelocity.divBy 10),
          P2 := (Vec2.mk param.x param.y).sub (targetVel.divBy 10),
          P3 := ⟨param.x, param.y⟩,
          targetVel := targetVel, targetAngle := param.angle,
          targetAngV := param.vAngular, I := ⟨0, 0⟩, numI := 0 }
      addSyncObject s obs target

/-- `NetPhysicsController::processPhysSyncEvent` (source lines 206-241). -/

def processPhysSyncEvent (s : NetPhysicsState) (event : PhysSyncEvent) :
    NetPhysicsState :=
  if event.sourceId = "" then s
  else event.syncList.foldl processSyncEntry s

/-- `NetPhysicsController::interpolate` (source lines 474-476):
`(target-source)/stepsLeft + source`. -/

def interpolate (stepsLeft : ℤ) (target source : ℚ) : ℚ :=
  (target - source) / (stepsLeft : ℚ) + source

/-- The per-dirty-group events `packPhysObj` emits for one shared obstacle, in
source order (source lines 349-370). -/

def packObjEvents (id : ℕ) (o : Obstacle) : List OutEvent :=
  (if o.posDirty then [OutEvent.physObj id (.position o.position)] else []) ++
  (if o.angleDirty then [OutEvent.physObj id (.angle o.angle)] else []) ++
  (if o.velDirty then [OutEvent.physObj id (.velocity o.linearVelocity)] else []) ++
  (if o.angVelDirty then [OutEvent.physObj id (.angularVel o.angularVelocity)] else []) ++
  (if o.typeDirty then [OutEvent.physObj id (.bodyType o.bodyType)] else []) ++
  (if o.boolConstDirty then
    [OutEvent.physObj id (.boolConsts o.isEnabled o.isAwake o.isSleepingAllowed
      o.isFixedRotation o.isBullet o.isSensor)] else []) ++
  (if o.floatConstDirty then
    [OutEvent.physObj id (.floatConsts o.density o.friction o.restitution
      o.linearDamping o.angularDamping o.gravityScale o.mass o.inertia o.centroid)]
   else [])

/-- `Obstacle::clearSharingDirtyBits`. -/

def clearSharingDirtyBits (o : Obstacle) : Obstacle :=
  { o with posDirty := false, angleDirty := false, velDirty := false,
           angVelDirty := false, typeDirty := false, boolConstDirty := false,
           floatConstDirty := false }

/-- One iteration of the `packPhysObj` loop (source lines 346-373): fetch the
id (`at` throws when absent, modelled as a skip), then for a shared obstacle
emit the dirty-group events and clear the dirty bits. -/

def packPhysObjStep (s : NetPhysicsState) (obs : ℕ) : NetPhysicsState :=
  match alookup obs s.world.objToId with
  | none => s
  | some id =>
    match alookup obs s.world.store with
    | none => s
    | some o =>
      if o.shared then
        { s with outEvents := s.outEvents ++ packObjEvents id o,
                 world := { s.world with
                              store := aupdate obs (clearSharingDirtyBits o) s.world.store } }
      else s

/-- `NetPhysicsController::packPhysObj` (source lines 344-374). -/

def packPhysObj (s : NetPhysicsState) : NetPhysicsState :=
  s.world.obstacles.foldl packPhysObjStep s

/-- One iteration of the ownership-transfer loop of `fixedUpdate` (source
lines 384-394): an owned entry at `1` is released, an entry above `1` is
decremented in place, and a permanent entry (`0`) is untouched. -/

def ownershipStep (s : NetPhysicsState) (obs : ℕ) : NetPhysicsState :=
  match alookup obs s.world.owned with
  | none => s
  | some left =>
    if left = 1 then releaseObs s obs
    else if 1 < left then
      { s with world := { s.world with owned := aupdate obs (left - 1) s.world.owned } }
    else s

/-- One iteration of the interpolation loop of `fixedUpdate` (source lines
399-456) with `ITPR_METHOD 0`: an unshared body is only queued for eviction;
otherwise with `stepsLeft = numSteps − curStep ≤ 1` the body snaps to the
target pose and velocities and is queued for eviction, else every scalar field
moves by one linear-convergence step; `curStep` is incremented in place. -/

def interpObsStep (s : NetPhysicsState) (entry : ℕ × TargetParam) : NetPhysicsState :=
  match alookup entry.1 s.world.store with
  | none => s
  | some obj =>
    if obj.shared = false then { s with deleteCache := s.deleteCache ++ [entry.1] }
    else
      let param := entry.2
      let stepsLeft : ℤ := param.numSteps - param.curStep
      let obj2 :=
        if stepsLeft ≤ 1 then
          { obj with position := param.P3, linearVelocity := param.targetVel,
                     angle := param.targetAngle, angularVelocity := param.targetAngV }
        else
          { obj with
              position := ⟨interpolate stepsLeft param.P3.x obj.position.x,
                           interpolate stepsLeft param.P3.y obj.position.y⟩,
              linearVelocity :=
                ⟨interpolate stepsLeft param.targetVel.x obj.linearVelocity.x,
                 interpolate stepsLeft param.targetVel.y obj.linearVelocity.y⟩,
              angle := interpolate stepsLeft param.targetAngle obj.angle,
              angularVelocity := interpolate stepsLeft param.targetAngV obj.angularVelocity }
      let del2 := if stepsLeft ≤ 1 then s.deleteCache ++ [entry.1] else s.deleteCache
      let ovrd2 := if stepsLeft ≤ 1 then s.ovrdCount + 1 else s.ovrdCount
      { s with world := { s.world with
                            store := aupdate entry.1 { obj2 with shared := true } s.world.store },
               cache := aupdate entry.1 { param with curStep := param.curStep + 1 } s.cache,
               deleteCache := del2,
               ovrdCount := ovrd2 }

/-- `NetPhysicsController::fixedUpdate` (source lines 379-467): publish dirty
bits, step the ownership leases, advance every cached interpolation, then
flush `_deleteCache` by erasing the queued cache entries.  (The local
`deleteCache` vector of the ownership block is never filled — dead code.) -/

def fixedUpdate (s : NetPhysicsState) : NetPhysicsState :=
  let s1 := packPhysObj s
  let s2 := s1.world.obstacles.foldl ownershipStep s1
  let s3 := s2.cache.foldl interpObsStep s2
  { s3 with cache := s3.deleteCache.foldl (fun c o => aerase o c) s3.cache,
            deleteCache := [] }

/-! ## `NetEventController` envelope layer (`CUNetEventController.cpp`)

A wire message is `[tag : u8][sender_tick : u64][payload : bytes]`
(`MIN_MSG_LENGTH = 9`).  The registry `_newEventVector` maps a tag to the
virtual `newEvent()`/`deserialize()` pair of the registered prototype,
modelled as one decoding function per slot. -/

/-- A decoded event body.  Slot 0 always holds `GameStateEvent`
(`attachEventType<GameStateEvent>()` in `init`); further variants are decoded
by whatever function the application registered for the tag. -/

inductive NetEvtBody where
  | gameState (e : GameStateEvent)
  | physSync (syncList : List ObjParam)
  | physObj (objId : ℕ) (action : PhysObjAction)
  | custom (payload : List ℕ)
  deriving DecidableEq, Repr

/-- A `NetEvent` after decode: the metadata set by `setMetaData` plus the
typed body. -/

structure NetEvt where
  tag : ℕ
  eventTimeStamp : ℕ
  receiveTimeStamp : ℕ
  sourceId : String
  body : NetEvtBody
  deriving DecidableEq, Repr

/-- The session status enum of `NetEventController`. -/

inductive NetStatus where
  | idle | connecting | connected | handshake | ready | ingame | neterror
  deriving DecidableEq, Repr

/-- The state of a `NetEventController` (the transport connection itself is a
collaborator and not part of the model; `updateCount` is the `Application`
tick counter the controller reads). -/

structure NetEventControllerState where
  status : NetStatus
  isHost : Bool
  numReady : ℕ
  shortUID : ℕ
  physEnabled : Bool
  phys : NetPhysicsState
  startGameTimeStamp : ℕ
  updateCount : ℕ
  inEventQueue : List NetEvt
  newEventVector : List (List ℕ → NetEvtBody)

/-- `Uint64` subtraction with wraparound, as computed by
`_appRef->getUpdateCount() - _startGameTimeStamp`. -/

def usub64 (a b : ℕ) : ℕ :=
  (a % 2 ^ 64 + (2 ^ 64 - b % 2 ^ 64)) % 2 ^ 64

/-- The local game tick `update_count − start_game_tick`. -/

def localGameTick (st : NetEventControllerState) : ℕ :=
  usub64 st.updateCount st.startGameTimeStamp

/-- The registry decoder for slot 0: `GameStateEvent::newEvent()` (a default
instance of type `GAME_START`) followed by `deserialize`. -/

def gameStateDecoder (payload : List ℕ) : NetEvtBody :=
  .gameState (GameStateEvent.deserialize { type := 102, shortUID := 0 } payload)

/-- `NetEventController::unwrap` (source lines 250-261).  The validity check
`data.size() >= MIN_MSG_LENGTH && (Uint8)data[0] < _newEventVector.size()` is
a `CUAssertLog` whose definition (`CUDebug.h`) is not under `src/`; modelled
from the spec (§4.2): "The envelope layer enforces `payload.len ≥ 9` bytes and
`tag < registry.len`; violations drop the message" — a violation yields
`none`.  The valid path reads the tag byte and the sender tick through
`LWDeserializer`, stamps the metadata, and decodes the remaining payload with
the registered prototype. -/

def unwrap (st : NetEventControllerState) (data : List ℕ) (source : String) :
    Option NetEvt :=
  if 9 ≤ data.length ∧ data.headD 0 < st.newEventVector.length then
    match (LWDeserializer.receive data).readByte with
    | none => none
    | some (tag, d1) =>
      match d1.readUint64 with
      | none => none
      | some (ts, _) =>
        some { tag := tag, eventTimeStamp := ts,
               receiveTimeStamp := usub64 st.updateCount st.startGameTimeStamp,
               sourceId := source,
               body := (st.newEventVector.getD tag (fun p => NetEvtBody.custom p))
                         (data.drop 9) }
  else none

/-- `NetEventController::processGameStateEvent` (source lines 170-187).
`_shortUID` receives `getShortUID()` (a `Uint8`); `_numReady` is a `Uint8`
counter. -/

def processGameStateEvent (st : NetEventControllerState) (g : GameStateEvent) :
    NetEventControllerState :=
  let st1 :=
    if st.status = .handshake ∧ g.type = 100 then
      { st with shortUID := g.getShortUID } else st
  let st2 :=
    if st1.status = .ready ∧ g.type = 102 then
      { st1 with status := .ingame, startGameTimeStamp := st1.updateCount } else st1
  if st2.isHost ∧ g.type = 101 then
    { st2 with numReady := (st2.numReady + 1) % 256 } else st2

/-- `NetEventController::processReceivedEvent` (source lines 151-168): the
`dynamic_pointer_cast` chain — game-state events are always processed; when
in-game, physics events go to the physics controller (if enabled) and
everything else is queued. -/

def processReceivedEvent (st : NetEventControllerState) (e : NetEvt) :
    NetEventControllerState :=
  match e.body with
  | .gameState g => processGameStateEvent st g
  | .physSync syncList =>
    if st.status = .ingame then
      if st.physEnabled then
        { st with phys := processPhysSyncEvent st.phys ⟨e.sourceId, syncList⟩ }
      else st
    else st
  | .physObj objId action =>
    if st.status = .ingame then
      if st.physEnabled then
        { st with phys := processPhysObjEvent st.phys ⟨e.sourceId, objId, action⟩ }
      else st
    else st
  | .custom _ =>
    if st.status = .ingame then { st with inEventQueue := st.inEventQueue ++ [e] }
    else st

/-- One received datagram as handled inside `processReceivedData`
(source lines 189-195): unwrap, then process; a dropped message changes
nothing. -/

def processReceivedDatum (st : NetEventControllerState) (data : List ℕ)
    (source : String) : NetEventControllerState :=
  match unwrap st data source with
  | none => st
  | some e => processReceivedEvent st e

/-- `NetEventController::isInAvailable` (source lines 232-237). -/

def isInAvailable (st : NetEventControllerState) : Bool :=
  match st.inEventQueue with
  | [] => false
  | top :: _ => top.eventTimeStamp ≤ localGameTick st

/-- `NetEventController::popInEvent` (source lines 240-244); `front()` on an
empty queue is undefined behaviour, modelled as `none`. -/

def popInEvent (st : NetEventControllerState) :
    Option (NetEvt × NetEventControllerState) :=
  match st.inEventQueue with
  | [] => none
  | e :: rest => some (e, { st with inEventQueue := rest })

/-! ## Concrete states used by witnesses -/

/-- A base obstacle value for concrete states. -/

def obs0 : Obstacle :=
  { position := ⟨5, 5⟩, linearVelocity := ⟨0, 0⟩, angle := 0, angularVelocity := 0,
    bodyType := 2, isEnabled := true, isAwake := true, isSleepingAllowed := true,
    isFixedRotation := false, isBullet := false, isSensor := false,
    density := 1, friction := 0, restitution := 0, linearDamping := 0,
    angularDamping := 0, gravityScale := 1, mass := 1, inertia := 1,
    centroid := ⟨0, 0⟩, shared := false, posDirty := false, angleDirty := false,
    velDirty := false, angVelDirty := false, typeDirty := false,
    boolConstDirty := false, floatConstDirty := false }

/-- An empty physics-controller state. -/

def phys0 : NetPhysicsState :=
  { isHost := false,
    world := { obstacles := [], store := [], idToObj := [], objToId := [],
               owned := [], nextHandle := 0 },
    obstacleFacts := [], cache := [], deleteCache := [], outEvents := [],
    itprCount := 0, ovrdCount := 0, stepSum := 0 }

/-- An idle event-controller state with only the built-in slot-0 registration. -/

def ctrl0 : NetEventControllerState :=
  { status := .idle, isHost := false, numReady := 0, shortUID := 0,
    physEnabled := false, phys := phys0, startGameTimeStamp := 0, updateCount := 0,
    inEventQueue := [], newEventVector := [gameStateDecoder] }

/-- A concrete inbound event with sender tick 5. -/

def ev5 : NetEvt :=
  { tag := 3, eventTimeStamp := 5, receiveTimeStamp := 0, sourceId := "peer",
    body := .custom [] }

/-- A concrete controller state whose local tick is 8 holding `ev5`. -/

def ctrlQ : NetEventControllerState :=
  { ctrl0 with updateCount := 10, startGameTimeStamp := 2, inEventQueue := [ev5] }

/-- Concrete interpolation target at one remaining step toward `(9, 9)`. -/

def tpSnap : TargetParam :=
  { curStep := 0, numSteps := 1, P0 := ⟨5, 5⟩, P1 := ⟨5, 5⟩, P2 := ⟨9, 9⟩,
    P3 := ⟨9, 9⟩, targetVel := ⟨1, 1⟩, targetAngle := 2, targetAngV := 3,
    I := ⟨0, 0⟩, numI := 0 }

/-- A world with one shared body (handle 0, id 77) used by the C2/C3
witnesses; the lease duration is a parameter. -/

def physLease (t : ℕ) : NetPhysicsState :=
  { phys0 with
    world := { obstacles := [0], store := [(0, { obs0 with shared := true })],
               idToObj := [(77, 0)], objToId := [(0, 77)], owned := [(0, t)],
               nextHandle := 1 } }

/-- The C2 witness state: one shared body at `(5, 5)` with a one-step target
at `(9, 9)`. -/

def physSnap : NetPhysicsState :=
  { physLease 0 with cache := [(0, tpSnap)] }

/-- The C1 witness state: one registered body (id 1, handle 0) sitting at
`(5, 5)` with angle 0. -/

def physReg : NetPhysicsState :=
  { phys0 with
    world := { obstacles := [0], store := [(0, { obs0 with shared := true })],
               idToObj := [(1, 0)], objToId := [(0, 1)], owned := [],
               nextHandle := 1 } }

/-- The C1 witness snapshot entry: body id 1 reported at `(5, 5)`, angle 0. -/

def opSame : ObjParam :=
  { objId := 1, x := 5, y := 5, vx := 0, vy := 0, angle := 0, vAngular := 0 }

theorem alookup_aupdate_self {α : Type} (k : ℕ) (v : α) (m : List (ℕ × α)) :
    alookup k (aupdate k v m) = (alookup k m).map (fun _ => v) := by
  induction m with
  | nil => rfl
  | cons p rest ih =>
    obtain ⟨a, b⟩ := p
    by_cases h : a = k <;> simp [aupdate, alookup, h, ih]

theorem alookup_aupdate_other {α : Type} {k k' : ℕ} (h : k' ≠ k) (v : α)
    (m : List (ℕ × α)) : alookup k (aupdate k' v m) = alookup k m := by
  induction m with
  | nil => rfl
  | cons p rest ih =>
    obtain ⟨a, b⟩ := p
    by_cases h2 : a = k'
    · subst h2
      simp [aupdate, alookup, Ne.symm h, h, ih]
    · by_cases h3 : a = k <;> simp [aupdate, alookup, h2, h3, Ne.symm h, ih]

theorem alookup_ainsert_other {α : Type} {k k' : ℕ} (h : k' ≠ k) (v : α)
    (m : List (ℕ × α)) : alookup k (ainsert k' v m) = alookup k m := by
  unfold ainsert
  cases alookup k' m <;> simp [alookup, h]

theorem alookup_aerase_self {α : Type} (k : ℕ) (m : List (ℕ × α)) :
    alookup k (aerase k m) = none := by
  induction m with
  | nil => rfl
  | cons p rest ih =>
    obtain ⟨a, b⟩ := p
    by_cases h : a = k <;> simp [aerase, alookup, h, ih]

theorem alookup_aerase_other {α : Type} {k k' : ℕ} (h : k' ≠ k) (m : List (ℕ × α)) :
    alookup k (aerase k' m) = alookup k m := by
  induction m with
  | nil => rfl
  | cons p rest ih =>
    obtain ⟨a, b⟩ := p
    by_cases h2 : a = k'
    · subst h2
      simp [aerase, alookup, h, Ne.symm h, ih]
    · by_cases h3 : a = k <;> simp [aerase, alookup, h2, h3, Ne.symm h, ih]

theorem alookup_ainsert_self_none {α : Type} {k : ℕ} {m : List (ℕ × α)}
    (h : alookup k m = none) (v : α) : alookup k (ainsert k v m) = some v := by
  simp [ainsert, h, alookup]

theorem alookup_ainsert_self_some {α : Type} {k : ℕ} {m : List (ℕ × α)} {v₀ : α}
    (h : alookup k m = some v₀) (v : α) : alookup k (ainsert k v m) = some v₀ := by
  simp [ainsert, h]

/-! ## Claim theorems: codec, envelope and queue -/

theorem LWDeserializer.readBytes_guard {d : LWDeserializer} (w : ℕ)
    (h : d.data.length ≤ d.pos) : d.readBytes w = some ([], d) := by
  simp [readBytes, h]

theorem isSome_omap {α β : Type} (f : α → β) (o : Option α) :
    (o.map f).isSome = o.isSome := by
  cases o <;> rfl

theorem LWDeserializer.readBytes_isSome (w : ℕ) (d : LWDeserializer) :
    (d.readBytes w).isSome ↔ (d.data.length ≤ d.pos ∨ d.pos + w ≤ d.data.length) := by
  unfold readBytes
  by_cases h1 : d.data.length ≤ d.pos
  · simp [h1]
  · by_cases h2 : d.pos + w ≤ d.data.length <;> simp [h1, h2]

/-- C6 counterexample: at position 0 of a one-byte buffer, `readUint64` passes
the `_pos >= _data.size()` guard and dereferences eight bytes, seven of them
past the end of the buffer (modelled by `none`): the read neither returns zero
nor stays inside the buffer, refuting the claim at this input. -/
theorem readUint64_truncated_buffer_counterexample :
    LWDeserializer.readUint64 { data := [7], pos := 0 } = none ∧
    ¬ ((0 : ℕ) + 8 ≤ ([7] : List ℕ).length) := by
  constructor
  · rfl
  · decide

/-- C6 (amended): every read returns zero (or `false`) with the state unchanged
when the position is at or past the end of the buffer; the one-byte reads
`readBool`/`readByte` never access memory outside the buffer, but each
multi-byte read stays inside the buffer only when either the guard fires or
the full scalar fits before the end. -/
theorem lwDeserializer_read_safety (d : LWDeserializer) :
    (d.data.length ≤ d.pos →
      d.readBool = some (false, d) ∧ d.readByte = some (0, d) ∧
      d.readFloat = some (0, d) ∧ d.readSint32 = some (0, d) ∧
      d.readUint16 = some (0, d) ∧ d.readUint32 = some (0, d) ∧
      d.readUint64 = some (0, d)) ∧
    ((d.readBool).isSome ∧ (d.readByte).isSome) ∧
    ((d.readUint16).isSome ↔ d.data.length ≤ d.pos ∨ d.pos + 2 ≤ d.data.length) ∧
    ((d.readFloat).isSome ↔ d.data.length ≤ d.pos ∨ d.pos + 4 ≤ d.data.length) ∧
    ((d.readSint32).isSome ↔ d.data.length ≤ d.pos ∨ d.pos + 4 ≤ d.data.length) ∧
    ((d.readUint32).isSome ↔ d.data.length ≤ d.pos ∨ d.pos + 4 ≤ d.data.length) ∧
    ((d.readUint64).isSome ↔ d.data.length ≤ d.pos ∨ d.pos + 8 ≤ d.data.length) := by
  refine ⟨fun h => ?_, ⟨?_, ?_⟩, ?_, ?_, ?_, ?_, ?_⟩
  · simp [LWDeserializer.readBool, LWDeserializer.readByte, LWDeserializer.readFloat,
      LWDeserializer.readSint32, LWDeserializer.readUint16, LWDeserializer.readUint32,
      LWDeserializer.readUint64, LWDeserializer.readBytes_guard _ h, fromNetBytes]
  · rw [LWDeserializer.readBool, isSome_omap, LWDeserializer.readBytes_isSome]
    omega
  · rw [LWDeserializer.readByte, isSome_omap, LWDeserializer.readBytes_isSome]
    omega
  · rw [LWDeserializer.readUint16, isSome_omap, LWDeserializer.readBytes_isSome]
  · rw [LWDeserializer.readFloat, isSome_omap, LWDeserializer.readBytes_isSome]
  · rw [LWDeserializer.readSint32, isSome_omap, LWDeserializer.readBytes_isSome]
  · rw [LWDeserializer.readUint32, isSome_omap, LWDeserializer.readBytes_isSome]
  · rw [LWDeserializer.readUint64, isSome_omap, LWDeserializer.readBytes_isSome]

/-- C6 witness: a concrete deserializer whose position is past the end; the
guarded reads return zero without moving. -/
theorem lwDeserializer_read_safety_witness :
    (([7] : List ℕ).length ≤ 5) ∧
    LWDeserializer.readUint64 { data := [7], pos := 5 } = some (0, { data := [7], pos := 5 }) ∧
    LWDeserializer.readBool { data := [7], pos := 5 } = some (false, { data := [7], pos := 5 }) := by
  refine ⟨by decide, ?_, ?_⟩
  · exact ((lwDeserializer_read_safety { data := [7], pos := 5 }).1 (by decide)).2.2.2.2.2.2
  · exact ((lwDeserializer_read_safety { data := [7], pos := 5 }).1 (by decide)).1

/-- C4: a received byte vector shorter than 9 bytes, or whose leading tag byte
is not below the registry size, is dropped by the envelope layer: no event is
constructed (`unwrap` yields `none`) and the controller state is unchanged. -/
theorem unwrap_invalid_message_dropped (st : NetEventControllerState)
    (data : List ℕ) (source : String)
    (h : data.length < 9 ∨ st.newEventVector.length ≤ data.headD 0) :
    unwrap st data source = none ∧ processReceivedDatum st data source = st := by
  have hg : ¬ (9 ≤ data.length ∧ data.headD 0 < st.newEventVector.length) := by
    rcases h with h | h
    · exact fun hc => absurd hc.1 (by omega)
    · exact fun hc => absurd hc.2 (by omega)
  refine ⟨?_, ?_⟩
  · unfold unwrap
    rw [if_neg hg]
  · unfold processReceivedDatum unwrap
    rw [if_neg hg]

/-- C4 witness: a concrete three-byte message on a controller with one
registered event type is dropped without any state change. -/
theorem unwrap_invalid_message_dropped_witness :
    (([0, 1, 2] : List ℕ).length < 9 ∨
      ctrl0.newEventVector.length ≤ ([0, 1, 2] : List ℕ).headD 0) ∧
    unwrap ctrl0 [0, 1, 2] "peer" = none ∧
    processReceivedDatum ctrl0 [0, 1, 2] "peer" = ctrl0 := by
  refine ⟨Or.inl (by decide), ?_, ?_⟩
  · exact (unwrap_invalid_message_dropped ctrl0 [0, 1, 2] "peer" (Or.inl (by decide))).1
  · exact (unwrap_invalid_message_dropped ctrl0 [0, 1, 2] "peer" (Or.inl (by decide))).2

/-- C5: with a held inbound event at the front of the queue, `isInAvailable`
returns `true` exactly when the local tick `update_count − start_game_tick`
has reached the event's sender tick, and `popInEvent` yields exactly that
front event, removing it from the queue; `isInAvailable` itself changes
nothing, so while it returns `false` the event stays queued. -/
theorem isInAvailable_tick_gate (st : NetEventControllerState) (e : NetEvt)
    (rest : List NetEvt) (h : st.inEventQueue = e :: rest) :
    (isInAvailable st = true ↔ e.eventTimeStamp ≤ localGameTick st) ∧
    popInEvent st = some (e, { st with inEventQueue := rest }) := by
  refine ⟨?_, ?_⟩
  · simp [isInAvailable, h]
  · simp [popInEvent, h]

/-- C5 witness: a queue holding one event with sender tick 5 on a controller
whose local tick is 8. -/
theorem isInAvailable_tick_gate_witness :
    ctrlQ.inEventQueue = [ev5] ∧
    (isInAvailable ctrlQ = true ↔ ev5.eventTimeStamp ≤ localGameTick ctrlQ) ∧
    popInEvent ctrlQ = some (ev5, { ctrlQ with inEventQueue := [] }) := by
  refine ⟨rfl, ?_, ?_⟩
  · exact (isInAvailable_tick_gate ctrlQ ev5 [] rfl).1
  · exact (isInAvailable_tick_gate ctrlQ ev5 [] rfl).2

/-- C8: one linear-convergence step with at least two steps left strictly
reduces the distance to the target whenever source and target differ. -/
theorem interpolate_strict_progress (stepsLeft : ℤ) (target source : ℚ)
    (hsteps : 2 ≤ stepsLeft) (hne : source ≠ target) :
    |target - interpolate stepsLeft target source| < |target - source| := by
  have hn0 : (0 : ℚ) < (stepsLeft : ℚ) := by
    exact_mod_cast lt_of_lt_of_le (by norm_num) hsteps
  have key : target - interpolate stepsLeft target source
      = (target - source) * (1 - 1 / (stepsLeft : ℚ)) := by
    field_simp [interpolate]
    ring
  rw [key, abs_mul]
  have hfrac0 : 0 < 1 / (stepsLeft : ℚ) := by positivity
  have hfrac1 : 1 / (stepsLeft : ℚ) < 1 := by
    rw [div_lt_one hn0]
    exact_mod_cast lt_of_lt_of_le one_lt_two hsteps
  have habs : |1 - 1 / (stepsLeft : ℚ)| < 1 := by
    rw [abs_of_nonneg (by linarith)]
    linarith
  have hpos : 0 < |target - source| :=
    abs_pos.mpr (sub_ne_zero.mpr (Ne.symm hne))
  calc |target - source| * |1 - 1 / (stepsLeft : ℚ)|
      < |target - source| * 1 := by
        exact mul_lt_mul_of_pos_left habs hpos
    _ = |target - source| := mul_one _

/-- C8 witness: one step from source 0 toward target 1 with two steps left. -/
theorem interpolate_strict_progress_witness :
    (2 : ℤ) ≤ 2 ∧ (0 : ℚ) ≠ 1 ∧
    |1 - interpolate 2 1 0| < |(1 : ℚ) - 0| := by
  refine ⟨le_refl 2, by norm_num, ?_⟩
  exact interpolate_strict_progress 2 1 0 (le_refl 2) (by norm_num)

/-- C9: a `PhysObjEvent` or `PhysSyncEvent` whose sender source id is the
empty string (a locally produced event) is ignored: `processPhysObjEvent` and
`processPhysSyncEvent` return the state unchanged — world, id maps, ownership
map, interpolation cache and outbound events included. -/
theorem processPhys_self_events_ignored (s : NetPhysicsState)
    (eObj : PhysObjEvent) (eSync : PhysSyncEvent)
    (hObj : eObj.sourceId = "") (hSync : eSync.sourceId = "") :
    processPhysObjEvent s eObj = s ∧ processPhysSyncEvent s eSync = s := by
  constructor
  · unfold processPhysObjEvent
    rw [if_pos hObj]
  · unfold processPhysSyncEvent
    rw [if_pos hSync]

/-- C9 witness: concrete self-events on the empty controller state. -/
theorem processPhys_self_events_ignored_witness :
    (PhysObjEvent.mk "" 0 .deletion).sourceId = "" ∧
    processPhysObjEvent phys0 (PhysObjEvent.mk "" 0 .deletion) = phys0 ∧
    processPhysSyncEvent phys0 (PhysSyncEvent.mk "" []) = phys0 := by
  refine ⟨rfl, ?_, ?_⟩
  · exact (processPhys_self_events_ignored phys0 _ (PhysSyncEvent.mk "" []) rfl rfl).1
  · exact (processPhys_self_events_ignored phys0 (PhysObjEvent.mk "" 0 .deletion) _ rfl rfl).2

/-- C10: `UID_ASSIGN` carries its short UID as a single byte: for a 32-bit
short UID `u`, serialising the event built by `allocUIDAssign u` and
deserialising the bytes yields the short UID `u % 256` (and `getShortUID`
itself returns the stored value truncated to 8 bits), so UIDs of 256 or more
are not preserved across the wire. -/
theorem gameStateEvent_shortUID_truncated (u : ℕ) (e0 : GameStateEvent)
    (_hu : u < 2 ^ 32) :
    (GameStateEvent.allocUIDAssign u).getShortUID = u % 256 ∧
    (e0.deserialize (GameStateEvent.allocUIDAssign u).serialize).type = 100 ∧
    (e0.deserialize (GameStateEvent.allocUIDAssign u).serialize).shortUID = u % 256 ∧
    (e0.deserialize (GameStateEvent.allocUIDAssign u).serialize).getShortUID = u % 256 := by
  have hser : (GameStateEvent.allocUIDAssign u).serialize = [100, u % 256] := rfl
  have hmod : u % 256 % 256 = u % 256 := Nat.mod_mod_of_dvd u dvd_rfl
  refine ⟨rfl, ?_, ?_, ?_⟩
  · rw [hser]
    rfl
  · rw [hser]
    show (u % 256 : ℕ) % 256 = u % 256
    exact hmod
  · rw [hser]
    show (u % 256 : ℕ) % 256 % 256 = u % 256
    rw [hmod, hmod]

/-- C10 witness: short UID 300 arrives as 44 after a serialise/deserialise
round trip. -/
theorem gameStateEvent_shortUID_truncated_witness :
    (300 : ℕ) < 2 ^ 32 ∧
    (GameStateEvent.allocUIDAssign 300).getShortUID = 300 % 256 ∧
    ((GameStateEvent.mk 102 0).deserialize
      (GameStateEvent.allocUIDAssign 300).serialize).shortUID = 300 % 256 ∧
    (300 : ℕ) % 256 = 44 := by
  refine ⟨by norm_num, ?_, ?_, by norm_num⟩
  · exact (gameStateEvent_shortUID_truncated 300 (GameStateEvent.mk 102 0) (by norm_num)).1
  · exact (gameStateEvent_shortUID_truncated 300 (GameStateEvent.mk 102 0) (by norm_num)).2.2.1

/-! ## Ownership acquisition (C7) -/

theorem ainsert_of_lookup_some {α : Type} {k : ℕ} {m : List (ℕ × α)} {v₀ : α}
    (h : alookup k m = some v₀) (v : α) : ainsert k v m = m := by
  simp [ainsert, h]

/-- C7 counterexample: on a non-host peer that already holds a lease of 3
remaining ticks on body 0 (global id 77), `acquireObs` with duration 10 leaves
the ledger value at 3 — `std::map::insert` does not overwrite — refuting the
claim that the map afterwards maps the body to the given duration. -/
theorem acquireObs_no_overwrite_counterexample :
    alookup 0 ({ phys0 with
      world := { obstacles := [0], store := [], idToObj := [(77, 0)],
                 objToId := [(0, 77)], owned := [(0, 3)], nextHandle := 1 } }
        : NetPhysicsState).world.owned = some 3 ∧
    alookup 0 (acquireObs { phys0 with
      world := { obstacles := [0], store := [], idToObj := [(77, 0)],
                 objToId := [(0, 77)], owned := [(0, 3)], nextHandle := 1 } }
      0 10).world.owned = some 3 ∧
    (3 : ℕ) ≠ 10 := by
  refine ⟨rfl, rfl, by decide⟩

/-- C7 (amended): `acquireObs(body, duration)` always appends
`OBJ_OWNER_ACQUIRE(body, duration)` to the outbound events, but the ledger
write uses `std::map::insert` semantics: a pre-existing entry keeps its old
remaining-ticks value, and when the body had no entry the recorded value is
the requested duration on a non-host peer and 0 (permanent) on the host,
regardless of the requested duration. -/
theorem acquireObs_insert_semantics (s : NetPhysicsState) (obs duration id : ℕ)
    (hid : alookup obs s.world.objToId = some id) :
    (acquireObs s obs duration).outEvents
      = s.outEvents ++ [.physObj id (.ownerAcquire duration)] ∧
    (alookup obs s.world.owned = none →
      alookup obs (acquireObs s obs duration).world.owned
        = some (if s.isHost then 0 else duration)) ∧
    (∀ t0, alookup obs s.world.owned = some t0 →
      alookup obs (acquireObs s obs duration).world.owned = some t0) := by
  unfold acquireObs
  rw [hid]
  refine ⟨rfl, fun hnone => ?_, fun t0 hsome => ?_⟩
  · by_cases hh : s.isHost
    · simp only [hh, if_true]
      have h1 : alookup obs (ainsert obs 0 s.world.owned) = some 0 :=
        alookup_ainsert_self_none hnone 0
      simpa [hh] using alookup_ainsert_self_some h1 duration
    · simp only [hh, if_false]
      simpa [hh] using alookup_ainsert_self_none hnone duration
  · by_cases hh : s.isHost
    · simp only [hh, if_true]
      rw [ainsert_of_lookup_some hsome 0]
      simpa using alookup_ainsert_self_some hsome duration
    · simp only [hh, if_false]
      simpa using alookup_ainsert_self_some hsome duration

/-- C7 witness: a non-host peer with no prior lease on body 0 (id 77) records
duration 10 and emits the acquire event. -/
theorem acquireObs_insert_semantics_witness :
    alookup 0 ({ phys0 with
      world := { obstacles := [0], store := [], idToObj := [(77, 0)],
                 objToId := [(0, 77)], owned := [], nextHandle := 1 } }
        : NetPhysicsState).world.objToId = some 77 ∧
    (acquireObs { phys0 with
      world := { obstacles := [0], store := [], idToObj := [(77, 0)],
                 objToId := [(0, 77)], owned := [], nextHandle := 1 } }
      0 10).outEvents = [.physObj 77 (.ownerAcquire 10)] ∧
    alookup 0 (acquireObs { phys0 with
      world := { obstacles := [0], store := [], idToObj := [(77, 0)],
                 objToId := [(0, 77)], owned := [], nextHandle := 1 } }
      0 10).world.owned = some 10 := by
  refine ⟨rfl, ?_, ?_⟩
  · have h := (acquireObs_insert_semantics { phys0 with
      world := { obstacles := [0], store := [], idToObj := [(77, 0)],
                 objToId := [(0, 77)], owned := [], nextHandle := 1 } } 0 10 77 rfl).1
    simpa using h
  · have h := (acquireObs_insert_semantics { phys0 with
      world := { obstacles := [0], store := [], idToObj := [(77, 0)],
                 objToId := [(0, 77)], owned := [], nextHandle := 1 } } 0 10 77 rfl).2.1 rfl
    simpa using h

/-! ## Frame lemmas for the three phases of `fixedUpdate` -/

theorem foldl_preserve {σ α : Type} (P : σ → Prop) (step : σ → α → σ)
    (hstep : ∀ s x, P s → P (step s x)) :
    ∀ (l : List α) (s : σ), P s → P (l.foldl step s) := by
  intro l
  induction l with
  | nil => intro s h; exact h
  | cons a l' ih => intro s h; exact ih (step s a) (hstep s a h)

theorem packPhysObjStep_frame (s : NetPhysicsState) (o : ℕ) :
    (packPhysObjStep s o).world.obstacles = s.world.obstacles ∧
    (packPhysObjStep s o).world.objToId = s.world.objToId ∧
    (packPhysObjStep s o).world.idToObj = s.world.idToObj ∧
    (packPhysObjStep s o).world.owned = s.world.owned ∧
    (packPhysObjStep s o).cache = s.cache ∧
    (packPhysObjStep s o).deleteCache = s.deleteCache ∧
    (packPhysObjStep s o).isHost = s.isHost ∧
    ∃ t, (packPhysObjStep s o).outEvents = s.outEvents ++ t := by
  unfold packPhysObjStep
  cases alookup o s.world.objToId with
  | none => exact ⟨rfl, rfl, rfl, rfl, rfl, rfl, rfl, [], by simp⟩
  | some id =>
    cases alookup o s.world.store with
    | none => exact ⟨rfl, rfl, rfl, rfl, rfl, rfl, rfl, [], by simp⟩
    | some ob =>
      dsimp only
      by_cases hsh : ob.shared
      · rw [if_pos hsh]
        exact ⟨rfl, rfl, rfl, rfl, rfl, rfl, rfl, packObjEvents id ob, rfl⟩
      · rw [if_neg hsh]
        exact ⟨rfl, rfl, rfl, rfl, rfl, rfl, rfl, [], by simp⟩

theorem packPhysObjStep_store_at (s : NetPhysicsState) (o k : ℕ) (ob : Obstacle)
    (h : alookup k s.world.store = some ob) :
    alookup k (packPhysObjStep s o).world.store = some ob ∨
    alookup k (packPhysObjStep s o).world.store = some (clearSharingDirtyBits ob) := by
  unfold packPhysObjStep
  cases alookup o s.world.objToId with
  | none => exact Or.inl h
  | some id =>
    cases hos : alookup o s.world.store with
    | none => exact Or.inl h
    | some ob' =>
      dsimp only
      by_cases hsh : ob'.shared
      · rw [if_pos hsh]
        by_cases hok : o = k
        · subst hok
          rw [h] at hos
          cases hos
          right
          simp [alookup_aupdate_self, h]
        · left
          simpa [alookup_aupdate_other (fun hh => hok hh)] using h
      · rw [if_neg hsh]
        exact Or.inl h

theorem packPhysObj_frame (s : NetPhysicsState) :
    (packPhysObj s).world.obstacles = s.world.obstacles ∧
    (packPhysObj s).world.objToId = s.world.objToId ∧
    (packPhysObj s).world.idToObj = s.world.idToObj ∧
    (packPhysObj s).world.owned = s.world.owned ∧
    (packPhysObj s).cache = s.cache ∧
    (packPhysObj s).deleteCache = s.deleteCache ∧
    (packPhysObj s).isHost = s.isHost ∧
    ∃ t, (packPhysObj s).outEvents = s.outEvents ++ t := by
  unfold packPhysObj
  refine foldl_preserve
    (fun s' => s'.world.obstacles = s.world.obstacles ∧
      s'.world.objToId = s.world.objToId ∧ s'.world.idToObj = s.world.idToObj ∧
      s'.world.owned = s.world.owned ∧ s'.cache = s.cache ∧
      s'.deleteCache = s.deleteCache ∧ s'.isHost = s.isHost ∧
      ∃ t, s'.outEvents = s.outEvents ++ t)
    packPhysObjStep ?_ _ s ⟨rfl, rfl, rfl, rfl, rfl, rfl, rfl, [], by simp⟩
  intro s' x hP
  obtain ⟨h1, h2, h3, h4, h5, h6, h7, t, h8⟩ := hP
  obtain ⟨g1, g2, g3, g4, g5, g6, g7, u, g8⟩ := packPhysObjStep_frame s' x
  refine ⟨g1.trans h1, g2.trans h2, g3.trans h3, g4.trans h4, g5.trans h5,
    g6.trans h6, g7.trans h7, t ++ u, ?_⟩
  rw [g8, h8, List.append_assoc]

theorem packPhysObj_store_shared (s : NetPhysicsState) (k : ℕ) (ob : Obstacle)
    (h : alookup k s.world.store = some ob) :
    ∃ ob1, alookup k (packPhysObj s).world.store = some ob1 ∧
      ob1.shared = ob.shared := by
  unfold packPhysObj
  refine foldl_preserve
    (fun s' => ∃ ob1, alookup k s'.world.store = some ob1 ∧ ob1.shared = ob.shared)
    packPhysObjStep ?_ _ s ⟨ob, h, rfl⟩
  intro s' x hP
  obtain ⟨ob1, hb1, hs1⟩ := hP
  rcases packPhysObjStep_store_at s' x k ob1 hb1 with h2 | h2
  · exact ⟨ob1, h2, hs1⟩
  · exact ⟨clearSharingDirtyBits ob1, h2, hs1⟩

theorem releaseObs_frame (s : NetPhysicsState) (o : ℕ) :
    (releaseObs s o).world.obstacles = s.world.obstacles ∧
    (releaseObs s o).world.store = s.world.store ∧
    (releaseObs s o).world.objToId = s.world.objToId ∧
    (releaseObs s o).world.idToObj = s.world.idToObj ∧
    (releaseObs s o).cache = s.cache ∧
    (releaseObs s o).deleteCache = s.deleteCache ∧
    (releaseObs s o).isHost = s.isHost ∧
    ∃ t, (releaseObs s o).outEvents = s.outEvents ++ t := by
  unfold releaseObs
  by_cases hh : s.isHost
  · rw [if_pos hh]
    exact ⟨rfl, rfl, rfl, rfl, rfl, rfl, rfl, [], by simp⟩
  · rw [if_neg hh]
    cases alookup o s.world.objToId with
    | none => exact ⟨rfl, rfl, rfl, rfl, rfl, rfl, rfl, [], by simp⟩
    | some id => exact ⟨rfl, rfl, rfl, rfl, rfl, rfl, rfl, [.physObj id .ownerRelease], rfl⟩

theorem ownershipStep_frame (s : NetPhysicsState) (o : ℕ) :
    (ownershipStep s o).world.obstacles = s.world.obstacles ∧
    (ownershipStep s o).world.store = s.world.store ∧
    (ownershipStep s o).world.objToId = s.world.objToId ∧
    (ownershipStep s o).world.idToObj = s.world.idToObj ∧
    (ownershipStep s o).cache = s.cache ∧
    (ownershipStep s o).deleteCache = s.deleteCache ∧
    (ownershipStep s o).isHost = s.isHost ∧
    ∃ t, (ownershipStep s o).outEvents = s.outEvents ++ t := by
  unfold ownershipStep
  cases alookup o s.world.owned with
  | none => exact ⟨rfl, rfl, rfl, rfl, rfl, rfl, rfl, [], by simp⟩
  | some left =>
    dsimp only
    by_cases h1 : left = 1
    · rw [if_pos h1]
      exact releaseObs_frame s o
    · rw [if_neg h1]
      by_cases h2 : 1 < left
      · rw [if_pos h2]
        exact ⟨rfl, rfl, rfl, rfl, rfl, rfl, rfl, [], by simp⟩
      · rw [if_neg h2]
        exact ⟨rfl, rfl, rfl, rfl, rfl, rfl, rfl, [], by simp⟩

theorem ownershipStep_owned_other {o b : ℕ} (hne : o ≠ b) (s : NetPhysicsState) :
    alookup b (ownershipStep s o).world.owned = alookup b s.world.owned := by
  unfold ownershipStep releaseObs
  cases alookup o s.world.owned with
  | none => rfl
  | some left =>
    dsimp only
    by_cases h1 : left = 1
    · rw [if_pos h1]
      by_cases hh : s.isHost
      · rw [if_pos hh]
      · rw [if_neg hh]
        cases alookup o s.world.objToId with
        | none => exact alookup_aerase_other hne _
        | some id => exact alookup_aerase_other hne _
    · rw [if_neg h1]
      by_cases h2 : 1 < left
      · rw [if_pos h2]
        exact alookup_aupdate_other hne _ _
      · rw [if_neg h2]

theorem ownership_fold_frame (l : List ℕ) (s : NetPhysicsState) :
    (l.foldl ownershipStep s).world.obstacles = s.world.obstacles ∧
    (l.foldl ownershipStep s).world.store = s.world.store ∧
    (l.foldl ownershipStep s).world.objToId = s.world.objToId ∧
    (l.foldl ownershipStep s).world.idToObj = s.world.idToObj ∧
    (l.foldl ownershipStep s).cache = s.cache ∧
    (l.foldl ownershipStep s).deleteCache = s.deleteCache ∧
    (l.foldl ownershipStep s).isHost = s.isHost ∧
    ∃ t, (l.foldl ownershipStep s).outEvents = s.outEvents ++ t := by
  refine foldl_preserve
    (fun s' => s'.world.obstacles = s.world.obstacles ∧
      s'.world.store = s.world.store ∧ s'.world.objToId = s.world.objToId ∧
      s'.world.idToObj = s.world.idToObj ∧ s'.cache = s.cache ∧
      s'.deleteCache = s.deleteCache ∧ s'.isHost = s.isHost ∧
      ∃ t, s'.outEvents = s.outEvents ++ t)
    ownershipStep ?_ l s ⟨rfl, rfl, rfl, rfl, rfl, rfl, rfl, [], by simp⟩
  intro s' x hP
  obtain ⟨h1, h2, h3, h4, h5, h6, h7, t, h8⟩ := hP
  obtain ⟨g1, g2, g3, g4, g5, g6, g7, u, g8⟩ := ownershipStep_frame s' x
  refine ⟨g1.trans h1, g2.trans h2, g3.trans h3, g4.trans h4, g5.trans h5,
    g6.trans h6, g7.trans h7, t ++ u, ?_⟩
  rw [g8, h8, List.append_assoc]

theorem ownership_fold_owned_other (l : List ℕ) (s : NetPhysicsState) (b : ℕ)
    (hb : b ∉ l) :
    alookup b (l.foldl ownershipStep s).world.owned = alookup b s.world.owned := by
  induction l generalizing s with
  | nil => rfl
  | cons a l' ih =>
    have hab : a ≠ b := fun h => hb (h ▸ List.mem_cons_self a l')
    rw [List.foldl_cons, ih _ (fun h => hb (List.mem_cons_of_mem a h)),
        ownershipStep_owned_other hab]

theorem ownership_fold_decrement (l : List ℕ) (s : NetPhysicsState) (b t : ℕ)
    (hnd : l.Nodup) (hb : b ∈ l) (ht : alookup b s.world.owned = some t)
    (h1t : 1 < t) :
    alookup b (l.foldl ownershipStep s).world.owned = some (t - 1) := by
  induction l generalizing s with
  | nil => exact absurd hb (List.not_mem_nil b)
  | cons a l' ih =>
    rw [List.foldl_cons]
    by_cases hab : a = b
    · subst hab
      have hbl' : a ∉ l' := (List.nodup_cons.mp hnd).1
      rw [ownership_fold_owned_other l' _ a hbl']
      unfold ownershipStep
      rw [ht]
      dsimp only
      rw [if_neg (by omega : ¬ t = 1), if_pos h1t]
      simp [alookup_aupdate_self, ht]
    · rcases List.mem_cons.mp hb with h | h
      · exact absurd h.symm hab
      · refine ih (ownershipStep s a) ((List.nodup_cons.mp hnd).2) h ?_
        rw [ownershipStep_owned_other hab]
        exact ht

theorem ownership_fold_release (l : List ℕ) (s : NetPhysicsState) (b idB : ℕ)
    (hnd : l.Nodup) (hb : b ∈ l) (hhost : s.isHost = false)
    (ht : alookup b s.world.owned = some 1)
    (hid : alookup b s.world.objToId = some idB) :
    alookup b (l.foldl ownershipStep s).world.owned = none ∧
    OutEvent.physObj idB .ownerRelease ∈ (l.foldl ownershipStep s).outEvents := by
  induction l generalizing s with
  | nil => exact absurd hb (List.not_mem_nil b)
  | cons a l' ih =>
    rw [List.foldl_cons]
    by_cases hab : a = b
    · subst hab
      have hbl' : a ∉ l' := (List.nodup_cons.mp hnd).1
      have hstep : ownershipStep s a = releaseObs s a := by
        unfold ownershipStep
        rw [ht]
        dsimp only
        rw [if_pos rfl]
      have hrel : (releaseObs s a).world.owned = aerase a s.world.owned ∧
          OutEvent.physObj idB .ownerRelease ∈ (releaseObs s a).outEvents := by
        unfold releaseObs
        rw [hhost]
        dsimp only
        rw [hid]
        exact ⟨rfl, by simp⟩
      constructor
      · rw [ownership_fold_owned_other l' _ a hbl', hstep, hrel.1]
        exact alookup_aerase_self a _
      · obtain ⟨-, -, -, -, -, -, -, u, hu2⟩ := ownership_fold_frame l' (ownershipStep s a)
        rw [hu2, hstep]
        exact List.mem_append_left u hrel.2
    · rcases List.mem_cons.mp hb with h | h
      · exact absurd h.symm hab
      · obtain ⟨-, -, g3, -, -, -, g7, -, -⟩ := ownershipStep_frame s a
        refine ih (ownershipStep s a) ((List.nodup_cons.mp hnd).2) h (g7.trans hhost) ?_ (g3 ▸ hid)
        rw [ownershipStep_owned_other hab]
        exact ht

theorem interpObsStep_frame (s : NetPhysicsState) (e : ℕ × TargetParam) :
    (interpObsStep s e).world.obstacles = s.world.obstacles ∧
    (interpObsStep s e).world.objToId = s.world.objToId ∧
    (interpObsStep s e).world.idToObj = s.world.idToObj ∧
    (interpObsStep s e).world.owned = s.world.owned ∧
    (interpObsStep s e).outEvents = s.outEvents ∧
    (interpObsStep s e).isHost = s.isHost ∧
    ∃ t, (interpObsStep s e).deleteCache = s.deleteCache ++ t := by
  unfold interpObsStep
  cases alookup e.1 s.world.store with
  | none => exact ⟨rfl, rfl, rfl, rfl, rfl, rfl, [], by simp⟩
  | some obj =>
    dsimp only
    by_cases hsh : obj.shared = false
    · rw [if_pos hsh]
      exact ⟨rfl, rfl, rfl, rfl, rfl, rfl, [e.1], rfl⟩
    · rw [if_neg hsh]
      by_cases hst : e.2.numSteps - e.2.curStep ≤ 1
      · rw [if_pos hst, if_pos hst]
        exact ⟨rfl, rfl, rfl, rfl, rfl, rfl, [e.1], rfl⟩
      · rw [if_neg hst, if_neg hst]
        exact ⟨rfl, rfl, rfl, rfl, rfl, rfl, [], by simp⟩

theorem interpObsStep_other {b : ℕ} {e : ℕ × TargetParam} (hne : e.1 ≠ b)
    (s : NetPhysicsState) :
    alookup b (interpObsStep s e).world.store = alookup b s.world.store ∧
    alookup b (interpObsStep s e).cache = alookup b s.cache := by
  unfold interpObsStep
  cases alookup e.1 s.world.store with
  | none => exact ⟨rfl, rfl⟩
  | some obj =>
    dsimp only
    by_cases hsh : obj.shared = false
    · rw [if_pos hsh]
      exact ⟨rfl, rfl⟩
    · rw [if_neg hsh]
      by_cases hst : e.2.numSteps - e.2.curStep ≤ 1
      · rw [if_pos hst, if_pos hst]
        exact ⟨alookup_aupdate_other hne _ _, alookup_aupdate_other hne _ _⟩
      · rw [if_neg hst, if_neg hst]
        exact ⟨alookup_aupdate_other hne _ _, alookup_aupdate_other hne _ _⟩

theorem interp_fold_frame (l : List (ℕ × TargetParam)) (s : NetPhysicsState) :
    (l.foldl interpObsStep s).world.obstacles = s.world.obstacles ∧
    (l.foldl interpObsStep s).world.objToId = s.world.objToId ∧
    (l.foldl interpObsStep s).world.idToObj = s.world.idToObj ∧
    (l.foldl interpObsStep s).world.owned = s.world.owned ∧
    (l.foldl interpObsStep s).outEvents = s.outEvents ∧
    (l.foldl interpObsStep s).isHost = s.isHost ∧
    ∃ t, (l.foldl interpObsStep s).deleteCache = s.deleteCache ++ t := by
  refine foldl_preserve
    (fun s' => s'.world.obstacles = s.world.obstacles ∧
      s'.world.objToId = s.world.objToId ∧ s'.world.idToObj = s.world.idToObj ∧
      s'.world.owned = s.world.owned ∧ s'.outEvents = s.outEvents ∧
      s'.isHost = s.isHost ∧ ∃ t, s'.deleteCache = s.deleteCache ++ t)
    interpObsStep ?_ l s ⟨rfl, rfl, rfl, rfl, rfl, rfl, [], by simp⟩
  intro s' x hP
  obtain ⟨h1, h2, h3, h4, h5, h6, t, h7⟩ := hP
  obtain ⟨g1, g2, g3, g4, g5, g6, u, g7⟩ := interpObsStep_frame s' x
  refine ⟨g1.trans h1, g2.trans h2, g3.trans h3, g4.trans h4, g5.trans h5,
    g6.trans h6, t ++ u, ?_⟩
  rw [g7, h7, List.append_assoc]

theorem interp_fold_store_other (l : List (ℕ × TargetParam)) (s : NetPhysicsState)
    (b : ℕ) (hb : b ∉ l.map Prod.fst) :
    alookup b (l.foldl interpObsStep s).world.store = alookup b s.world.store := by
  induction l generalizing s with
  | nil => rfl
  | cons e l' ih =>
    have hne : e.1 ≠ b := fun h => hb (h ▸ List.mem_map_of_mem Prod.fst (List.mem_cons_self e l'))
    rw [List.foldl_cons, ih _ (fun h => hb (List.mem_cons_of_mem _ h)),
        (interpObsStep_other hne s).1]

theorem interp_fold_deleteCache_mem (l : List (ℕ × TargetParam))
    (s : NetPhysicsState) (b : ℕ) (hb : b ∈ s.deleteCache) :
    b ∈ (l.foldl interpObsStep s).deleteCache := by
  refine foldl_preserve (fun s' => b ∈ s'.deleteCache) interpObsStep ?_ l s hb
  intro s' x hP
  obtain ⟨-, -, -, -, -, -, u, hu2⟩ := interpObsStep_frame s' x
  rw [hu2]
  exact List.mem_append_left u hP

theorem interp_fold_snap (l : List (ℕ × TargetParam)) (s : NetPhysicsState)
    (b : ℕ) (param : TargetParam) (obj : Obstacle)
    (hnd : (l.map Prod.fst).Nodup) (hmem : (b, param) ∈ l)
    (hst : alookup b s.world.store = some obj) (hsh : obj.shared = true)
    (hsteps : param.numSteps - param.curStep ≤ 1) :
    alookup b (l.foldl interpObsStep s).world.store
      = some { obj with position := param.P3, linearVelocity := param.targetVel,
                        angle := param.targetAngle,
                        angularVelocity := param.targetAngV, shared := true } ∧
    b ∈ (l.foldl interpObsStep s).deleteCache := by
  induction l generalizing s with
  | nil => exact absurd hmem (List.not_mem_nil _)
  | cons e l' ih =>
    rw [List.foldl_cons]
    by_cases hab : e.1 = b
    · have hbl' : b ∉ l'.map Prod.fst := by
        intro hmem'
        exact (List.nodup_cons.mp (by simpa using hnd)).1 (hab ▸ hmem')
      have heq : e = (b, param) := by
        rcases List.mem_cons.mp hmem with h | h
        · exact h.symm
        · exact absurd (List.mem_map_of_mem Prod.fst h) hbl'
      subst heq
      have hstep :
          alookup b (interpObsStep s (b, param)).world.store
            = some { obj with position := param.P3, linearVelocity := param.targetVel,
                              angle := param.targetAngle,
                              angularVelocity := param.targetAngV, shared := true } ∧
          b ∈ (interpObsStep s (b, param)).deleteCache := by
        unfold interpObsStep
        rw [hst]
        dsimp only
        rw [if_neg (by rw [hsh]; exact fun h => Bool.noConfusion h)]
        rw [if_pos hsteps, if_pos hsteps]
        constructor
        · simp [alookup_aupdate_self, hst]
        · simp
      refine ⟨?_, interp_fold_deleteCache_mem l' _ b hstep.2⟩
      rw [interp_fold_store_other l' _ b hbl']
      exact hstep.1
    · have hmem' : (b, param) ∈ l' := by
        rcases List.mem_cons.mp hmem with h | h
        · exact absurd (congrArg Prod.fst h).symm hab
        · exact h
      refine ih (interpObsStep s e) (by simpa using (List.nodup_cons.mp (by simpa using hnd)).2)
        hmem' ?_
      rw [(interpObsStep_other hab s).1]
      exact hst

theorem erase_fold_preserve_none (ds : List ℕ) (c : List (ℕ × TargetParam)) (b : ℕ)
    (hc : alookup b c = none) :
    alookup b (ds.foldl (fun c' o => aerase o c') c) = none := by
  induction ds generalizing c with
  | nil => exact hc
  | cons d ds' ih =>
    rw [List.foldl_cons]
    refine ih _ ?_
    by_cases hdb : d = b
    · subst hdb
      exact alookup_aerase_self d c
    · rw [alookup_aerase_other (fun h => hdb h)]
      exact hc

theorem erase_fold_none (ds : List ℕ) (c : List (ℕ × TargetParam)) (b : ℕ)
    (hb : b ∈ ds) :
    alookup b (ds.foldl (fun c' o => aerase o c') c) = none := by
  induction ds generalizing c with
  | nil => exact absurd hb (List.not_mem_nil b)
  | cons d ds' ih =>
    rw [List.foldl_cons]
    by_cases hdb : d = b
    · subst hdb
      exact erase_fold_preserve_none ds' _ d (alookup_aerase_self d c)
    · rcases List.mem_cons.mp hb with h | h
      · exact absurd h.symm hdb
      · exact ih _ h

/-- C3 counterexample: a ledger entry for a body that is no longer in the
world's obstacle list (reachable: `removeSharedObstacle` removes the body
without erasing its ledger entry) is skipped by the lease loop of
`fixedUpdate`, which iterates the obstacle list — the entry at 3 remaining
ticks is NOT decremented. -/
theorem fixedUpdate_stale_lease_counterexample :
    alookup 5 ({ phys0 with
      world := { obstacles := [], store := [], idToObj := [], objToId := [],
                 owned := [(5, 3)], nextHandle := 0 } }
        : NetPhysicsState).world.owned = some 3 ∧
    (1 : ℕ) < 3 ∧
    alookup 5 (fixedUpdate { phys0 with
      world := { obstacles := [], store := [], idToObj := [], objToId := [],
                 owned := [(5, 3)], nextHandle := 0 } }).world.owned = some 3 ∧
    some 3 ≠ some (3 - 1 : ℕ) := by
  refine ⟨rfl, by norm_num, rfl, by decide⟩

/-- C3 (amended): on a tick of `fixedUpdate`, every ownership-ledger entry
whose body is currently registered in the world's obstacle list behaves as
claimed: remaining-ticks `t > 1` is decremented by exactly one, and an entry
observed at `t = 1` is released — on a non-host peer the entry is erased and
an `OBJ_OWNER_RELEASE` event for that body is appended to the outbound
events.  (Entries for bodies absent from the obstacle list are skipped, see
the counterexample.) -/
theorem fixedUpdate_lease_tick (s : NetPhysicsState) (b t : ℕ)
    (hnd : s.world.obstacles.Nodup) (hb : b ∈ s.world.obstacles)
    (ht : alookup b s.world.owned = some t) :
    (1 < t → alookup b (fixedUpdate s).world.owned = some (t - 1)) ∧
    (t = 1 → s.isHost = false →
      ∀ idB, alookup b s.world.objToId = some idB →
        alookup b (fixedUpdate s).world.owned = none ∧
        OutEvent.physObj idB .ownerRelease ∈ (fixedUpdate s).outEvents) := by
  obtain ⟨p1, p2, p3, p4, p5, p6, p7, t0, p8⟩ := packPhysObj_frame s
  have hobs1 : (packPhysObj s).world.obstacles = s.world.obstacles := p1
  have howned1 : (packPhysObj s).world.owned = s.world.owned := p4
  unfold fixedUpdate
  obtain ⟨q1, q2, q3, q4, q5, q6, t2, q8⟩ :=
    interp_fold_frame ((packPhysObj s).world.obstacles.foldl ownershipStep
      (packPhysObj s)).cache
      ((packPhysObj s).world.obstacles.foldl ownershipStep (packPhysObj s))
  constructor
  · intro h1t
    show alookup b (_ : NetPhysicsState).world.owned = some (t - 1)
    rw [q4]
    exact ownership_fold_decrement (packPhysObj s).world.obstacles (packPhysObj s)
      b t (by rw [hobs1]; exact hnd) (by rw [hobs1]; exact hb)
      (by rw [howned1]; exact ht) h1t
  · intro ht1 hhost idB hid
    subst ht1
    have hrel := ownership_fold_release (packPhysObj s).world.obstacles
      (packPhysObj s) b idB (by rw [hobs1]; exact hnd) (by rw [hobs1]; exact hb)
      (p7.trans hhost) (by rw [howned1]; exact ht) (by rw [p2]; exact hid)
    constructor
    · show alookup b (_ : NetPhysicsState).world.owned = none
      rw [q4]
      exact hrel.1
    · show OutEvent.physObj idB .ownerRelease ∈ (_ : NetPhysicsState).outEvents
      rw [q5]
      exact hrel.2

/-- C2 counterexample: body 0 sits at `(5, 5)` with its `shared` flag cleared
while a cached target with one remaining step points at `(9, 9)`; the
interpolation loop of `fixedUpdate` only queues unshared bodies for eviction
(source lines 401-404), so the cache entry is removed but the body is NOT
snapped to the target — refuting the claim at this input. -/
theorem fixedUpdate_snap_counterexample :
    alookup 0 ({ phys0 with
      world := { obstacles := [0], store := [(0, obs0)], idToObj := [(77, 0)],
                 objToId := [(0, 77)], owned := [], nextHandle := 1 },
      cache := [(0, tpSnap)] } : NetPhysicsState).cache = some tpSnap ∧
    tpSnap.numSteps - tpSnap.curStep ≤ 1 ∧
    alookup 0 (fixedUpdate { phys0 with
      world := { obstacles := [0], store := [(0, obs0)], idToObj := [(77, 0)],
                 objToId := [(0, 77)], owned := [], nextHandle := 1 },
      cache := [(0, tpSnap)] }).world.store = some obs0 ∧
    obs0.position ≠ tpSnap.P3 ∧
    alookup 0 (fixedUpdate { phys0 with
      world := { obstacles := [0], store := [(0, obs0)], idToObj := [(77, 0)],
                 objToId := [(0, 77)], owned := [], nextHandle := 1 },
      cache := [(0, tpSnap)] }).cache = none := by
  refine ⟨rfl, by decide, rfl, by decide, rfl⟩

/-- C2 (amended): on a tick of `fixedUpdate`, every cached interpolation
target whose body's `shared` flag is set and whose remaining steps
`numSteps − curStep` is at most 1 has the body's position, linear velocity,
angle and angular velocity set exactly to the target's values, and the cache
entry for that body is removed.  (For an unshared body the entry is removed
without touching the body, see the counterexample.) -/
theorem fixedUpdate_snap_target (s : NetPhysicsState) (b : ℕ) (param : TargetParam)
    (obj : Obstacle) (hnd : (s.cache.map Prod.fst).Nodup)
    (hmem : (b, param) ∈ s.cache) (hobj : alookup b s.world.store = some obj)
    (hsh : obj.shared = true) (hsteps : param.numSteps - param.curStep ≤ 1) :
    (∃ ob2, alookup b (fixedUpdate s).world.store = some ob2 ∧
      ob2.position = param.P3 ∧ ob2.linearVelocity = param.targetVel ∧
      ob2.angle = param.targetAngle ∧ ob2.angularVelocity = param.targetAngV) ∧
    alookup b (fixedUpdate s).cache = none := by
  obtain ⟨p1, p2, p3, p4, p5, p6, p7, t0, p8⟩ := packPhysObj_frame s
  obtain ⟨ob1, hob1, hsh1⟩ := packPhysObj_store_shared s b obj hobj
  obtain ⟨r1, r2, r3, r4, r5, r6, r7, t1, r8⟩ :=
    ownership_fold_frame (packPhysObj s).world.obstacles (packPhysObj s)
  unfold fixedUpdate
  have hcache2 : ((packPhysObj s).world.obstacles.foldl ownershipStep
      (packPhysObj s)).cache = s.cache := r5.trans p5
  have hstore2 : alookup b ((packPhysObj s).world.obstacles.foldl ownershipStep
      (packPhysObj s)).world.store = some ob1 := by
    rw [r2]
    exact hob1
  have hsnap := interp_fold_snap
    ((packPhysObj s).world.obstacles.foldl ownershipStep (packPhysObj s)).cache
    ((packPhysObj s).world.obstacles.foldl ownershipStep (packPhysObj s))
    b param ob1 (by rw [hcache2]; exact hnd) (by rw [hcache2]; exact hmem)
    hstore2 (hsh1.trans hsh) hsteps
  constructor
  · exact ⟨_, hsnap.1, rfl, rfl, rfl, rfl⟩
  · exact erase_fold_none _ _ b hsnap.2

/-- C3 witness: a non-host peer with leases of 5 and of 1 remaining ticks on
body 0: the former decrements to 4, the latter is erased with an
`OBJ_OWNER_RELEASE(77)` emitted. -/
theorem fixedUpdate_lease_tick_witness :
    (physLease 5).world.obstacles.Nodup ∧ 0 ∈ (physLease 5).world.obstacles ∧
    alookup 0 (physLease 5).world.owned = some 5 ∧
    alookup 0 (fixedUpdate (physLease 5)).world.owned = some (5 - 1) ∧
    alookup 0 (fixedUpdate (physLease 1)).world.owned = none ∧
    OutEvent.physObj 77 .ownerRelease ∈ (fixedUpdate (physLease 1)).outEvents := by
  refine ⟨by decide, by decide, rfl, ?_, ?_, ?_⟩
  · exact (fixedUpdate_lease_tick (physLease 5) 0 5 (by decide) (by decide) rfl).1
      (by norm_num)
  · exact ((fixedUpdate_lease_tick (physLease 1) 0 1 (by decide) (by decide) rfl).2
      rfl rfl 77 rfl).1
  · exact ((fixedUpdate_lease_tick (physLease 1) 0 1 (by decide) (by decide) rfl).2
      rfl rfl 77 rfl).2

/-- C2 witness: the shared body snaps exactly to the target pose and
velocities and the cache entry is evicted. -/
theorem fixedUpdate_snap_target_witness :
    (physSnap.cache.map Prod.fst).Nodup ∧ (0, tpSnap) ∈ physSnap.cache ∧
    alookup 0 physSnap.world.store = some { obs0 with shared := true } ∧
    ({ obs0 with shared := true } : Obstacle).shared = true ∧
    tpSnap.numSteps - tpSnap.curStep ≤ 1 ∧
    ((∃ ob2, alookup 0 (fixedUpdate physSnap).world.store = some ob2 ∧
      ob2.position = tpSnap.P3 ∧ ob2.linearVelocity = tpSnap.targetVel ∧
      ob2.angle = tpSnap.targetAngle ∧ ob2.angularVelocity = tpSnap.targetAngV) ∧
    alookup 0 (fixedUpdate physSnap).cache = none) := by
  refine ⟨by decide, by decide, rfl, rfl, by decide, ?_⟩
  exact fixedUpdate_snap_target physSnap 0 tpSnap { obs0 with shared := true }
    (by decide) (by decide) rfl rfl (by decide)

/-! ## The interpolation step count of `processPhysSyncEvent` (C1) -/

theorem int_floor_sqrt (x : ℝ) (hx : 0 ≤ x) :
    ⌊Real.sqrt x⌋ = (Nat.sqrt (Int.toNat ⌊x⌋) : ℤ) := by
  have h0 : (0 : ℤ) ≤ ⌊x⌋ := Int.floor_nonneg.mpr hx
  set m : ℕ := Int.toNat ⌊x⌋ with hm
  have hmeq : ((m : ℤ) : ℝ) = ((⌊x⌋ : ℤ) : ℝ) := by
    rw [hm, Int.toNat_of_nonneg h0]
  have hmx : (m : ℝ) ≤ x := by
    calc (m : ℝ) = ((⌊x⌋ : ℤ) : ℝ) := by exact_mod_cast hmeq
      _ ≤ x := Int.floor_le x
  have hxm1 : x < (m : ℝ) + 1 := by
    calc x < ((⌊x⌋ : ℤ) : ℝ) + 1 := Int.lt_floor_add_one x
      _ = (m : ℝ) + 1 := by rw [← hmeq]; norm_cast
  have hlow : ((Nat.sqrt m : ℕ) : ℝ) ≤ Real.sqrt x := by
    have h1 : ((Nat.sqrt m : ℕ) : ℝ) ^ 2 ≤ (m : ℝ) := by
      exact_mod_cast Nat.sqrt_le' m
    calc ((Nat.sqrt m : ℕ) : ℝ) = Real.sqrt (((Nat.sqrt m : ℕ) : ℝ) ^ 2) :=
        (Real.sqrt_sq (by positivity)).symm
      _ ≤ Real.sqrt x := Real.sqrt_le_sqrt (le_trans h1 hmx)
  have hhigh : Real.sqrt x < ((Nat.sqrt m : ℕ) : ℝ) + 1 := by
    have h1 : (m : ℝ) + 1 ≤ (((Nat.sqrt m : ℕ) : ℝ) + 1) ^ 2 := by
      exact_mod_cast Nat.succ_le_succ_sqrt' m
    have h2 : x < (((Nat.sqrt m : ℕ) : ℝ) + 1) ^ 2 := lt_of_lt_of_le hxm1 h1
    calc Real.sqrt x < Real.sqrt ((((Nat.sqrt m : ℕ) : ℝ) + 1) ^ 2) :=
        Real.sqrt_lt_sqrt hx h2
      _ = ((Nat.sqrt m : ℕ) : ℝ) + 1 := Real.sqrt_sq (by positivity)
  rw [Int.floor_eq_iff]
  constructor
  · exact_mod_cast hlow
  · push_cast
    exact hhigh

/-- `floorThirtyDist` is exactly `⌊30 · ‖p − q‖⌋`, the truncated cast
`(int)(diff * 30)` of the source. -/
theorem floorThirtyDist_eq (p q : Vec2) :
    ((floorThirtyDist p q : ℕ) : ℤ)
      = ⌊(30 : ℝ) * Real.sqrt (((p.x : ℝ) - (q.x : ℝ)) ^ 2
          + ((p.y : ℝ) - (q.y : ℝ)) ^ 2)⌋ := by
  have hcast : ((distSq p q : ℚ) : ℝ)
      = ((p.x : ℝ) - (q.x : ℝ)) ^ 2 + ((p.y : ℝ) - (q.y : ℝ)) ^ 2 := by
    unfold distSq
    push_cast
    ring
  have h30 : (30 : ℝ) * Real.sqrt ((distSq p q : ℚ) : ℝ)
      = Real.sqrt ((900 : ℝ) * ((distSq p q : ℚ) : ℝ)) := by
    rw [show (900 : ℝ) = 30 ^ 2 by norm_num,
        Real.sqrt_mul (by positivity) _, Real.sqrt_sq (by norm_num)]
  have hnn : (0 : ℝ) ≤ (900 : ℝ) * ((distSq p q : ℚ) : ℝ) := by
    rw [hcast]
    positivity
  rw [← hcast, h30, int_floor_sqrt _ hnn]
  unfold floorThirtyDist
  congr 2
  rw [show (900 : ℝ) * ((distSq p q : ℚ) : ℝ)
      = (((900 : ℚ) * distSq p q : ℚ) : ℝ) by push_cast; ring,
    Rat.floor_cast]

theorem alookup_mem_values {α : Type} {k : ℕ} {m : List (ℕ × α)} {v : α}
    (h : alookup k m = some v) : v ∈ m.map Prod.snd := by
  induction m with
  | nil => exact absurd h (by simp [alookup])
  | cons p rest ih =>
    obtain ⟨a, b⟩ := p
    by_cases hak : a = k
    · rw [alookup, if_pos hak] at h
      cases h
      exact List.mem_cons_self _ _
    · rw [alookup, if_neg hak] at h
      exact List.mem_cons_of_mem _ (ih h)

theorem alookup_inj_values {α : Type} {m : List (ℕ × α)}
    (hnd : (m.map Prod.snd).Nodup) {k1 k2 : ℕ} {v : α}
    (h1 : alookup k1 m = some v) (h2 : alookup k2 m = some v) : k1 = k2 := by
  induction m with
  | nil => exact absurd h1 (by simp [alookup])
  | cons p rest ih =>
    obtain ⟨a, b⟩ := p
    by_cases ha1 : a = k1 <;> by_cases ha2 : a = k2
    · rw [← ha1, ← ha2]
    · rw [alookup, if_pos ha1] at h1
      cases h1
      rw [alookup, if_neg ha2] at h2
      exact absurd (alookup_mem_values h2) (List.nodup_cons.mp (by simpa using hnd)).1
    · rw [alookup, if_pos ha2] at h2
      cases h2
      rw [alookup, if_neg ha1] at h1
      exact absurd (alookup_mem_values h1) (List.nodup_cons.mp (by simpa using hnd)).1
    · rw [alookup, if_neg ha1] at h1
      rw [alookup, if_neg ha2] at h2
      exact ih (by simpa using (List.nodup_cons.mp (by simpa using hnd)).2) h1 h2

theorem addSyncObject_frame (s : NetPhysicsState) (obs : ℕ) (param : TargetParam) :
    (addSyncObject s obs param).world.idToObj = s.world.idToObj ∧
    (addSyncObject s obs param).world.objToId = s.world.objToId ∧
    (addSyncObject s obs param).world.obstacles = s.world.obstacles ∧
    (addSyncObject s obs param).world.owned = s.world.owned ∧
    (addSyncObject s obs param).outEvents = s.outEvents ∧
    (addSyncObject s obs param).deleteCache = s.deleteCache ∧
    (addSyncObject s obs param).isHost = s.isHost := by
  unfold addSyncObject
  cases alookup obs s.cache with
  | none => exact ⟨rfl, rfl, rfl, rfl, rfl, rfl, rfl⟩
  | some oldParam =>
    dsimp only
    cases alookup obs s.world.store with
    | none => exact ⟨rfl, rfl, rfl, rfl, rfl, rfl, rfl⟩
    | some obj => exact ⟨rfl, rfl, rfl, rfl, rfl, rfl, rfl⟩

theorem addSyncObject_cache_self (s : NetPhysicsState) (obs : ℕ)
    (param : TargetParam) :
    ∃ tgt, alookup obs (addSyncObject s obs param).cache = some tgt ∧
      tgt.numSteps = param.numSteps := by
  unfold addSyncObject
  cases alookup obs s.cache with
  | none =>
    dsimp only
    exact ⟨param, alookup_ainsert_self_none (alookup_aerase_self obs s.cache) param, rfl⟩
  | some oldParam =>
    dsimp only
    cases alookup obs s.world.store with
    | none =>
      exact ⟨{ param with I := oldParam.I, numI := oldParam.numI },
        alookup_ainsert_self_none (alookup_aerase_self obs s.cache) _, rfl⟩
    | some obj =>
      exact ⟨{ param with I := oldParam.I, numI := oldParam.numI },
        alookup_ainsert_self_none (alookup_aerase_self obs s.cache) _, rfl⟩

theorem addSyncObject_other {b obs : ℕ} (hne : obs ≠ b) (s : NetPhysicsState)
    (param : TargetParam) :
    alookup b (addSyncObject s obs param).world.store = alookup b s.world.store ∧
    alookup b (addSyncObject s obs param).cache = alookup b s.cache := by
  unfold addSyncObject
  cases alookup obs s.cache with
  | none =>
    dsimp only
    exact ⟨rfl, by rw [alookup_ainsert_other hne, alookup_aerase_other hne]⟩
  | some oldParam =>
    dsimp only
    cases alookup obs s.world.store with
    | none =>
      exact ⟨rfl, by rw [alookup_ainsert_other hne, alookup_aerase_other hne]⟩
    | some obj =>
      exact ⟨alookup_aupdate_other hne _ _,
        by rw [alookup_ainsert_other hne, alookup_aerase_other hne]⟩

theorem processSyncEntry_frame (s : NetPhysicsState) (q : ObjParam) :
    (processSyncEntry s q).world.idToObj = s.world.idToObj ∧
    (processSyncEntry s q).world.objToId = s.world.objToId ∧
    (processSyncEntry s q).world.obstacles = s.world.obstacles ∧
    (processSyncEntry s q).world.owned = s.world.owned := by
  unfold processSyncEntry
  cases alookup q.objId s.world.idToObj with
  | none => exact ⟨rfl, rfl, rfl, rfl⟩
  | some obs =>
    dsimp only
    cases alookup obs s.world.store with
    | none => exact ⟨rfl, rfl, rfl, rfl⟩
    | some obj =>
      obtain ⟨g1, g2, g3, g4, -, -, -⟩ := addSyncObject_frame s obs _
      exact ⟨g1, g2, g3, g4⟩

theorem processSyncEntry_other (s : NetPhysicsState) (q : ObjParam) (b : ℕ)
    (hq : ∀ o', alookup q.objId s.world.idToObj = some o' → o' ≠ b) :
    alookup b (processSyncEntry s q).world.store = alookup b s.world.store ∧
    alookup b (processSyncEntry s q).cache = alookup b s.cache := by
  unfold processSyncEntry
  cases hA : alookup q.objId s.world.idToObj with
  | none => exact ⟨rfl, rfl⟩
  | some obs =>
    dsimp only
    cases alookup obs s.world.store with
    | none => exact ⟨rfl, rfl⟩
    | some obj => exact addSyncObject_other (hq obs hA) s _

theorem sync_fold_cache_other (l : List ObjParam) (s : NetPhysicsState) (b : ℕ)
    (hpres : ∀ q ∈ l, ∀ o', alookup q.objId s.world.idToObj = some o' → o' ≠ b) :
    alookup b (l.foldl processSyncEntry s).cache = alookup b s.cache := by
  induction l generalizing s with
  | nil => rfl
  | cons q l' ih =>
    rw [List.foldl_cons]
    have hstep := processSyncEntry_other s q b (hpres q (List.mem_cons_self q l'))
    have hrec := ih (processSyncEntry s q)
      (fun q' hq' o' ho' => hpres q' (List.mem_cons_of_mem q hq') o'
        ((processSyncEntry_frame s q).1 ▸ ho'))
    rw [hrec, hstep.2]

theorem sync_fold_steps (l : List ObjParam) (s : NetPhysicsState)
    (param : ObjParam) (b : ℕ) (obj : Obstacle)
    (hnd : (l.map ObjParam.objId).Nodup) (hmem : param ∈ l)
    (hvals : (s.world.idToObj.map Prod.snd).Nodup)
    (hid : alookup param.objId s.world.idToObj = some b)
    (hobj : alookup b s.world.store = some obj) :
    ∃ tgt, alookup b (l.foldl processSyncEntry s).cache = some tgt ∧
      tgt.numSteps = max 1 (min 30
        (max ((floorThirtyDist obj.position ⟨param.x, param.y⟩ : ℕ) : ℤ)
          ⌊(10 : ℚ) * |obj.angle - param.angle|⌋)) := by
  induction l generalizing s with
  | nil => exact absurd hmem (List.not_mem_nil _)
  | cons q l' ih =>
    rw [List.foldl_cons]
    by_cases hq : q = param
    · subst hq
      have hstep : ∃ tgt, alookup b (processSyncEntry s q).cache = some tgt ∧
          tgt.numSteps = max 1 (min 30
            (max ((floorThirtyDist obj.position ⟨q.x, q.y⟩ : ℕ) : ℤ)
              ⌊(10 : ℚ) * |obj.angle - q.angle|⌋)) := by
        unfold processSyncEntry
        rw [hid]
        dsimp only
        rw [hobj]
        dsimp only
        exact addSyncObject_cache_self _ b _
      obtain ⟨tgt, htgt, hnum⟩ := hstep
      refine ⟨tgt, ?_, hnum⟩
      rw [sync_fold_cache_other l' (processSyncEntry s q) b ?_, htgt]
      intro q' hq' o' ho' hob
      subst hob
      rw [(processSyncEntry_frame s q).1] at ho'
      have heq : q'.objId = q.objId := alookup_inj_values hvals ho' hid
      have hqnotin : q.objId ∉ l'.map ObjParam.objId :=
        (List.nodup_cons.mp (by simpa using hnd)).1
      exact hqnotin (heq ▸ List.mem_map_of_mem ObjParam.objId hq')
    · have hmem' : param ∈ l' := by
        rcases List.mem_cons.mp hmem with h | h
        · exact absurd h.symm hq
        · exact h
      have hbne : ∀ o', alookup q.objId s.world.idToObj = some o' → o' ≠ b := by
        intro o' ho' hob
        subst hob
        have heq : q.objId = param.objId := alookup_inj_values hvals ho' hid
        have hqnotin : q.objId ∉ l'.map ObjParam.objId :=
          (List.nodup_cons.mp (by simpa using hnd)).1
        exact hqnotin (heq ▸ List.mem_map_of_mem ObjParam.objId hmem')
      have hstep := processSyncEntry_other s q b hbne
      exact ih (processSyncEntry s q)
        (by simpa using (List.nodup_cons.mp (by simpa using hnd)).2) hmem'
        (by rw [(processSyncEntry_frame s q).1]; exact hvals)
        (by rw [(processSyncEntry_frame s q).1]; exact hid)
        (by rw [hstep.1]; exact hobj)

/-- C1: for every received `PhysSync` entry whose body id is registered (and
whose id occurs once in the snapshot, as `PhysSyncEvent::addObj` guarantees),
the step count stored in the new interpolation target is
`clamp(max(⌊30·d⌋, ⌊a⌋), 1, 30)` where `d` is the Euclidean distance from the
body's current position to the snapshot position and `a` is ten times the
absolute difference of the body's current angle and the snapshot angle. -/
theorem processPhysSyncEvent_steps_clamp (s : NetPhysicsState)
    (ev : PhysSyncEvent) (param : ObjParam) (b : ℕ) (obj : Obstacle)
    (hsrc : ev.sourceId ≠ "")
    (hnd : (ev.syncList.map ObjParam.objId).Nodup)
    (hmem : param ∈ ev.syncList)
    (hvals : (s.world.idToObj.map Prod.snd).Nodup)
    (hid : alookup param.objId s.world.idToObj = some b)
    (hobj : alookup b s.world.store = some obj) :
    ∃ tgt, alookup b (processPhysSyncEvent s ev).cache = some tgt ∧
      tgt.numSteps = max 1 (min 30 (max
        ⌊(30 : ℝ) * Real.sqrt (((obj.position.x : ℝ) - (param.x : ℝ)) ^ 2
          + ((obj.position.y : ℝ) - (param.y : ℝ)) ^ 2)⌋
        ⌊(10 : ℝ) * |(obj.angle : ℝ) - (param.angle : ℝ)|⌋)) := by
  unfold processPhysSyncEvent
  rw [if_neg hsrc]
  obtain ⟨tgt, htgt, hnum⟩ :=
    sync_fold_steps ev.syncList s param b obj hnd hmem hvals hid hobj
  refine ⟨tgt, htgt, ?_⟩
  rw [hnum, floorThirtyDist_eq obj.position ⟨param.x, param.y⟩]
  have hang : (⌊(10 : ℚ) * |obj.angle - param.angle|⌋ : ℤ)
      = ⌊(10 : ℝ) * |(obj.angle : ℝ) - (param.angle : ℝ)|⌋ := by
    rw [show (10 : ℝ) * |(obj.angle : ℝ) - (param.angle : ℝ)|
        = (((10 : ℚ) * |obj.angle - param.angle| : ℚ) : ℝ) by push_cast; ring,
      Rat.floor_cast]
  rw [hang]

/-- C1 witness: a snapshot placing the body exactly where it is yields a
target whose step count is the clamped value (here 1). -/
theorem processPhysSyncEvent_steps_clamp_witness :
    (PhysSyncEvent.mk "peer" [opSame]).sourceId ≠ "" ∧
    alookup opSame.objId physReg.world.idToObj = some 0 ∧
    alookup 0 physReg.world.store = some { obs0 with shared := true } ∧
    (∃ tgt, alookup 0 (processPhysSyncEvent physReg
        (PhysSyncEvent.mk "peer" [opSame])).cache = some tgt ∧
      tgt.numSteps = max 1 (min 30 (max
        ⌊(30 : ℝ) * Real.sqrt (((({ obs0 with shared := true } : Obstacle).position.x : ℝ)
            - (opSame.x : ℝ)) ^ 2
          + ((({ obs0 with shared := true } : Obstacle).position.y : ℝ)
            - (opSame.y : ℝ)) ^ 2)⌋
        ⌊(10 : ℝ) * |(({ obs0 with shared := true } : Obstacle).angle : ℝ)
            - (opSame.angle : ℝ)|⌋))) := by
  refine ⟨by decide, rfl, rfl, ?_⟩
  exact processPhysSyncEvent_steps_clamp physReg (PhysSyncEvent.mk "peer" [opSame])
    opSame 0 { obs0 with shared := true } (by decide) (by decide)
    (List.mem_singleton.mpr rfl) (by decide) rfl rfl
